import Mathlib

/-!
Verification of the InfiniBand health-check component
(`components/accelerator/nvidia/infiniband/component.go`).

The Go code is shallowly embedded: pure functions become Lean
functions, the event-store bucket becomes an explicit state value,
machine times become `Int` seconds (the zero value of `time.Time`
is modelled as `0`), and fallible operations return `Except`.
External collaborators that are not part of the sources
(`pkg/nvidia-query/infiniband`, `pkg/eventstore`, `api/v1`) are
modelled from the specification; each such definition carries a
doc comment starting with "Modelled from the spec:".
-/

namespace GpudInfiniband

/-- An InfiniBand port as parsed from the data sources
(`infiniband.IBPort`: device name, link state, physical state, rate).
The type itself is declared outside `src/`; its shape follows the
spec's data model `Port = {device, linkState, physicalState, rate}`. -/
structure IBPort where
  device : String
  state : String
  physicalState : String
  rate : Nat
  deriving DecidableEq, Repr

/-- Modelled from the spec: the policy
`{minActivePorts, minRate}` (`infiniband.ExpectedPortStates`,
declared outside `src/`). -/
structure ExpectedPortStates where
  atLeastPorts : Nat
  atLeastRate : Nat
  deriving DecidableEq, Repr

/-- Modelled from the spec: "A policy where both fields are zero is the
disabled sentinel" (`ExpectedPortStates.IsZero`, declared outside `src/`). -/
def ExpectedPortStates.isZero (t : ExpectedPortStates) : Bool :=
  t.atLeastPorts == 0 && t.atLeastRate == 0

/-- One card of parsed `ibstat` output (`infiniband.IbstatOutput.Parsed`
element; declared outside `src/`, shape from the spec's Port model). -/
structure IbstatCard where
  device : String
  port1State : String
  port1PhysState : String
  port1Rate : Nat
  deriving DecidableEq, Repr

/-- Parsed output of the primary (`ibstat`) data source. -/
structure IbstatOutput where
  parsed : List IbstatCard
  deriving DecidableEq, Repr

/-- Modelled from the spec: `IbstatOutput.Parsed.IBPorts()` (declared
outside `src/`) — the already-parsed port list of the primary source. -/
def IbstatOutput.ibPorts (o : IbstatOutput) : List IBPort :=
  o.parsed.map (fun c => ⟨c.device, c.port1State, c.port1PhysState, c.port1Rate⟩)

/-- One device of parsed `ibstatus` output (declared outside `src/`,
shape from the spec's Port model). -/
structure IbstatusDev where
  device : String
  state : String
  physState : String
  rate : Nat
  linkLayer : String
  deriving DecidableEq, Repr

/-- Parsed output of the fallback (`ibstatus`) data source. -/
structure IbstatusOutput where
  parsed : List IbstatusDev
  deriving DecidableEq, Repr

/-- Modelled from the spec: `IbstatusOutput.Parsed.IBPorts()` (declared
outside `src/`) — the already-parsed port list of the fallback source. -/
def IbstatusOutput.ibPorts (o : IbstatusOutput) : List IBPort :=
  o.parsed.map (fun d => ⟨d.device, d.state, d.physState, d.rate⟩)

/-- Modelled from the spec: `apiv1.HealthStateTypeHealthy`
(the healthy classification; `api/v1` is not under `src/`). -/
def healthyState : String := "Healthy"

/-- Modelled from the spec: `apiv1.HealthStateTypeUnhealthy`
(the unhealthy classification; `api/v1` is not under `src/`). -/
def unhealthyState : String := "Unhealthy"

/-- Modelled from the spec: `apiv1.EventTypeInfo` (severity "info"). -/
def eventTypeInfo : String := "Info"

/-- Modelled from the spec: `apiv1.EventTypeWarning` (severity "warning"). -/
def eventTypeWarning : String := "Warning"

/-- Modelled from the spec: the hardware-inspection repair action
(`apiv1.RepairActionTypeHardwareInspection`; `api/v1` is not under `src/`).
Suggested actions are modelled as the list of repair-action names. -/
def hardwareInspectionAction : String := "HARDWARE_INSPECTION"

/-- A stored event (`eventstore.Event`, declared outside `src/`; shape from
the spec's Event model `{timestamp, category, severity, message, payload}`).
The JSON-encoded `all_ibports` extra-info payload is modelled as the decoded
port list; `none` models a missing or undecodable payload. -/
structure Event where
  time : Int
  name : String
  typ : String
  message : String
  ports : Option (List IBPort)
  deriving DecidableEq, Repr

/-- The zero `eventstore.Event`, used as a default for list indexing. -/
def dummyEvent : Event := ⟨0, "", "", "", none⟩

/-- Modelled from the spec: the event-store equivalence used by
`eventBucket.Find` — "query the store for an existing event considered
equivalent (content-equality excluding the newly generated flag)".  The
spec's dedup-idempotence property ("inserting the same content-equivalent
event twice in a row results in exactly one stored event", across two
consecutive cycles with distinct timestamps) forces the equivalence to
exclude the timestamp, so it compares name, type, message and payload. -/
def Event.equiv (a b : Event) : Bool :=
  a.name == b.name && a.typ == b.typ && a.message == b.message && a.ports == b.ports

/-- Modelled from the spec: the event-store bucket (`eventstore.Bucket`,
outside `src/`): a time-ascending append log with `insert`, a content
`find`, and an ascending range read `getSince`.  The `fail*` flags inject
the store failures of the spec's error taxonomy (StoreError). -/
structure Bucket where
  events : List Event
  failFind : Bool
  failInsert : Bool
  failGet : Bool
  deriving DecidableEq, Repr

/-- Modelled from the spec: `eventBucket.Find` — returns an already-stored
event equivalent to the probe, or `none`; may fail. -/
def Bucket.find (b : Bucket) (ev : Event) : Except String (Option Event) :=
  if b.failFind then Except.error "find failed"
  else Except.ok (b.events.find? (fun e => Event.equiv e ev))

/-- Modelled from the spec: `eventBucket.Insert` — appends the event;
may fail, in which case the store is unchanged. -/
def Bucket.insert (b : Bucket) (ev : Event) : Except String Bucket :=
  if b.failInsert then Except.error "insert failed"
  else Except.ok { b with events := b.events ++ [ev] }

/-- Modelled from the spec: `eventBucket.Get(ctx, since)` — all events with
timestamp ≥ `since`, ascending by time (ascending because events are
appended in time order). -/
def Bucket.get (b : Bucket) (since : Int) : Except String (List Event) :=
  if b.failGet then Except.error "get failed"
  else Except.ok (b.events.filter (fun e => since ≤ e.time))

/-- The per-cycle check result (`checkResult`, component.go lines 700-727).
`health` is the `apiv1.HealthStateType` string (`""` before evaluation);
`err` / `errIbstatus` hold error messages (`none` = Go `nil`). -/
structure CheckResult where
  ibstatOutput : Option IbstatOutput
  ibstatusOutput : Option IbstatusOutput
  allIBPorts : List IBPort
  unhealthyIBPorts : List IBPort
  ts : Int
  err : Option String
  errIbstatus : Option String
  health : String
  suggestedActions : Option (List String)
  reason : String
  reasonIbSwitchFault : String
  reasonIbPortDrop : String
  reasonIbPortFlap : String
  deriving DecidableEq, Repr

/-- `cr := &checkResult{ts: time.Now().UTC()}` — the fresh result at the
top of `Check` (component.go line 168): every field at its zero value
except the timestamp. -/
def initCheckResult (now : Int) : CheckResult :=
  { ibstatOutput := none, ibstatusOutput := none, allIBPorts := [],
    unhealthyIBPorts := [], ts := now, err := none, errIbstatus := none,
    health := "", suggestedActions := none, reason := "",
    reasonIbSwitchFault := "", reasonIbPortDrop := "", reasonIbPortFlap := "" }

/-- component.go line 267. -/
def reasonThresholdNotSetSkipped : String := "ports or rate threshold not set, skipping"

/-- component.go line 269. -/
def reasonMissingIbstatIbstatusOutput : String := "missing ibstat/ibstatus output (skipped evaluation)"

/-- component.go line 270. -/
def reasonMissingEventBucket : String := "missing event storage (skipped evaluation)"

/-- component.go line 271. -/
def reasonNoIbIssueFoundFromIbstat : String := "no infiniband issue found (in ibstat/ibstatus)"

/-- Modelled from the spec: `infiniband.EvaluatePortsAndRate` (declared
outside `src/`): "A port counts toward the healthy tally when its link
state is the active state and its rate is ≥ minRate; all other ports are
collected into unhealthyPorts.  If the count of ports satisfying both
conditions is < minActivePorts, return the unhealthy set and a descriptive
error; otherwise return an empty set and no error."  The error message
text is unspecified by the spec; a descriptive placeholder is used. -/
def EvaluatePortsAndRate (ports : List IBPort) (atLeastPorts atLeastRate : Nat) :
    List IBPort × Option String :=
  let healthyCount := (ports.filter (fun p => p.state == "Active" && atLeastRate ≤ p.rate)).length
  if healthyCount < atLeastPorts then
    (ports.filter (fun p => !(p.state == "Active" && atLeastRate ≤ p.rate)),
     some "not enough active ports to meet the threshold")
  else ([], none)

/-- `evaluateThresholds` (component.go lines 274-329). -/
def evaluateThresholds (cr : CheckResult) (thresholds : ExpectedPortStates) : CheckResult :=
  if thresholds.isZero then
    { cr with health := healthyState, suggestedActions := none, unhealthyIBPorts := [],
              reason := reasonThresholdNotSetSkipped, err := none, errIbstatus := none }
  else if cr.allIBPorts.length == 0 then
    { cr with reason := reasonMissingIbstatIbstatusOutput, health := healthyState }
  else
    match EvaluatePortsAndRate cr.allIBPorts thresholds.atLeastPorts thresholds.atLeastRate with
    | (unhealthy, some msg) =>
      { cr with health := unhealthyState,
                suggestedActions := some [hardwareInspectionAction],
                unhealthyIBPorts := unhealthy,
                reason := msg }
    | (_, none) =>
      let cr2 := { cr with health := healthyState, suggestedActions := none,
                           unhealthyIBPorts := [], reason := reasonNoIbIssueFoundFromIbstat }
      if cr2.err.isSome && cr2.health == healthyState then
        { cr2 with err := none, errIbstatus := none }
      else cr2

/-- `checkResult.convertToIbstatEvent` (component.go lines 331-368): the
compact event keeps only device and state per port (physical state and
rate are zeroed); severity is warning when unhealthy ports exist. -/
def convertToIbstatEvent (cr : CheckResult) : Event :=
  { time := cr.ts,
    name := "ibstat",
    typ := if cr.unhealthyIBPorts.length > 0 then eventTypeWarning else eventTypeInfo,
    message := cr.reason,
    ports := some (cr.allIBPorts.map (fun p => ⟨p.device, p.state, "", 0⟩)) }

/-- `parseIBPortsFromEvent` (component.go lines 370-387): non-`ibstat`
events and missing/undecodable payloads yield the empty list. -/
def parseIBPortsFromEvent (ev : Event) : List IBPort :=
  if ev.name != "ibstat" then []
  else match ev.ports with
    | some ports => ports
    | none => []

/-- `component.recordIbEvent` (component.go lines 389-424): look up an
equivalent stored event first; skip insertion when found; escalate to
unhealthy with a store-error reason on a find or insert failure.  The
third component is the returned Go error (`none` = `nil`). -/
def recordIbEvent (b : Bucket) (cr : CheckResult) : CheckResult × Bucket × Option String :=
  let ev := convertToIbstatEvent cr
  match b.find ev with
  | Except.error e =>
    ({ cr with err := some e, health := unhealthyState,
               reason := "error finding ibstat event" }, b, some e)
  | Except.ok (some _) => (cr, b, none)
  | Except.ok none =>
    match b.insert ev with
    | Except.error e =>
      ({ cr with err := some e, health := unhealthyState,
                 reason := "error inserting ibstat event" }, b, some e)
    | Except.ok b2 => ({ cr with err := none }, b2, none)

/-- `component.readAllIbstatEvents` (component.go lines 429-458): range
read since the given time, keeping only `ibstat` events (ascending). -/
def readAllIbstatEvents (b : Bucket) (since : Int) : Except String (List Event) :=
  match b.get since with
  | Except.error e => Except.error e
  | Except.ok events => Except.ok (events.filter (fun ev => ev.name == "ibstat"))

/-- The `ibstat` events of the 10-minute lookback window used by the
temporal analyzers (the value `readAllIbstatEvents` returns for
`since = ts − 10 minutes` when the store read succeeds). -/
def ibstatEventsInWindow (b : Bucket) (ts : Int) : List Event :=
  (b.events.filter (fun e => ts - 600 ≤ e.time)).filter (fun ev => ev.name == "ibstat")

/-- Go-map lookup on an association list (`map[string]T` access). -/
def mapLookup {α : Type} (m : List (String × α)) (dev : String) : Option α :=
  (m.find? (fun p => p.1 == dev)).map (fun p => p.2)

/-- Go-map `delete`. -/
def mapErase {α : Type} (m : List (String × α)) (dev : String) : List (String × α) :=
  m.filter (fun p => p.1 != dev)

/-- Go-map insert that keeps an existing entry (the "only track the first
time the port dropped" insert of `evaluateIbPortDrop`). -/
def mapInsertIfAbsent {α : Type} (m : List (String × α)) (dev : String) (v : α) :
    List (String × α) :=
  if m.any (fun p => p.1 == dev) then m else m ++ [(dev, v)]

/-- Go-map assignment `m[dev] = v`. -/
def mapSet {α : Type} (m : List (String × α)) (dev : String) (v : α) :
    List (String × α) :=
  if m.any (fun p => p.1 == dev) then
    m.map (fun p => if p.1 == dev then (dev, v) else p)
  else m ++ [(dev, v)]

/-- The per-port step of the `droppedSince` scan (component.go lines
543-556): a non-"Down" reading clears the device; a "Down" reading
records the event time only if the device is not yet tracked. -/
def dropPort (t : Int) (m : List (String × Int)) (p : IBPort) : List (String × Int) :=
  if p.state != "Down" then mapErase m p.device
  else mapInsertIfAbsent m p.device t

/-- The per-event step of the `droppedSince` scan (component.go lines
541-557). -/
def dropEvent (m : List (String × Int)) (ev : Event) : List (String × Int) :=
  (parseIBPortsFromEvent ev).foldl (dropPort ev.time) m

/-- The `droppedSince` map after scanning all window events in ascending
order (component.go lines 540-557). -/
def buildDroppedSince (evs : List Event) : List (String × Int) :=
  evs.foldl dropEvent []

/-- Modelled from the spec: the human-readable relative time produced by
the external `humanize.RelTime(ts, now, "ago", "from now")` call —
"<relative-time> ago" rendering, here in whole minutes. -/
def relTime (t now : Int) : String :=
  toString ((now - t) / 60) ++ " minutes ago"

/-- The message-building loop over `droppedSince` (component.go lines
562-583): entries with negative elapsed time or elapsed < 4 minutes are
skipped; the rest yield "<device> dropped <relative-time>" messages. -/
def dropMsgsOf (ts : Int) (ds : List (String × Int)) : List String :=
  ds.filterMap (fun p =>
    let elapsed := ts - p.2
    if elapsed < 0 then none
    else if elapsed < 240 then none
    else some (p.1 ++ " dropped " ++ relTime p.2 ts))

/-- `sort.Strings` — lexicographically ascending sort. -/
def sortStrings (l : List String) : List String :=
  List.insertionSort (fun a b => a ≤ b) l

/-- `component.evaluateIbPortDrop` (component.go lines 499-591). -/
def evaluateIbPortDrop (b : Bucket) (cr : CheckResult) : CheckResult :=
  if cr.health == healthyState then cr
  else if cr.ts == 0 then cr
  else
    match readAllIbstatEvents b (cr.ts - 600) with
    | Except.error _ => cr
    | Except.ok ibstatEvents =>
      if ibstatEvents.length == 0 then cr
      else if ibstatEvents.length == 1 && cr.ts == (ibstatEvents.headD dummyEvent).time then cr
      else
        let msgs := dropMsgsOf cr.ts (buildDroppedSince ibstatEvents)
        if msgs.length == 0 then cr
        else { cr with reasonIbPortDrop :=
                 "ib port drop -- " ++ String.intercalate ", " (sortStrings msgs) }

/-- The per-port step of the `stateTransitions` scan (component.go lines
656-664): start a fresh singleton list for an untracked device, append
the state only when it differs from the last recorded one. -/
def flapPort (m : List (String × List String)) (p : IBPort) : List (String × List String) :=
  match mapLookup m p.device with
  | none => mapSet m p.device [p.state]
  | some prev =>
    if prev.length == 0 then mapSet m p.device [p.state]
    else if prev.getLastD "" != p.state then mapSet m p.device (prev ++ [p.state])
    else m

/-- The per-event step of the `stateTransitions` scan (component.go lines
646-665): events older than 4 minutes are skipped. -/
def flapEvent (now : Int) (m : List (String × List String)) (ev : Event) :
    List (String × List String) :=
  if now - ev.time > 240 then m
  else (parseIBPortsFromEvent ev).foldl flapPort m

/-- The `stateTransitions` map after scanning all window events in
ascending order (component.go lines 645-665). -/
def buildStateTransitions (now : Int) (evs : List Event) : List (String × List String) :=
  evs.foldl (flapEvent now) []

/-- Keep the last 4 transition entries (component.go lines 678-682). -/
def lastFour (tr : List String) : List String :=
  if tr.length > 4 then tr.drop (tr.length - 4) else tr

/-- The message-building loop over `stateTransitions` (component.go lines
672-688): devices with fewer than 2 recorded states yield no message. -/
def flapMsgsOf (st : List (String × List String)) : List String :=
  st.filterMap (fun p =>
    if p.2.length < 2 then none
    else some (p.1 ++ " " ++ String.intercalate " -> " (lastFour p.2)))

/-- `component.evaluateIbPortFlap` (component.go lines 598-696): runs with
no health guard; requires more than one window event; gives up when the
oldest window event lies in the future. -/
def evaluateIbPortFlap (b : Bucket) (cr : CheckResult) : CheckResult :=
  if cr.ts == 0 then cr
  else
    match readAllIbstatEvents b (cr.ts - 600) with
    | Except.error _ => cr
    | Except.ok ibstatEvents =>
      if ibstatEvents.length ≤ 1 then cr
      else if cr.ts - (ibstatEvents.headD dummyEvent).time < 0 then cr
      else
        let st := buildStateTransitions cr.ts ibstatEvents
        if st.length == 0 then cr
        else
          let msgs := flapMsgsOf st
          if msgs.length == 0 then cr
          else { cr with reasonIbPortFlap :=
                   "ib port flap -- " ++ String.intercalate ", " (sortStrings msgs) }

/-- The total number of ports observed this cycle (component.go lines
479-484): `len(Parsed)` of the ibstat output when present, else of the
ibstatus output, else 0. -/
def totalPortCount (cr : CheckResult) : Nat :=
  match cr.ibstatOutput with
  | some o => o.parsed.length
  | none =>
    match cr.ibstatusOutput with
    | some o => o.parsed.length
    | none => 0

/-- `component.evaluateIbSwitchFault` (component.go lines 463-493). -/
def evaluateIbSwitchFault (cr : CheckResult) : CheckResult :=
  if cr.health == healthyState then cr
  else if cr.unhealthyIBPorts.length == 0 then cr
  else if totalPortCount cr == 0 || cr.unhealthyIBPorts.length != totalPortCount cr then cr
  else { cr with reasonIbSwitchFault := "ib switch fault, all ports down" }

/-- The per-cycle inputs of `component.Check` (component.go lines 165-263):
the configured policy, the NVML preconditions, the two data-source results
(the invocations themselves are external; their results are inputs), the
`errors.Is(err, ErrNoIbstatCommand)` classification of the primary error,
whether an event bucket is configured, and the cycle timestamp. -/
structure CheckInput where
  thresholds : ExpectedPortStates
  nvmlPresent : Bool
  nvmlExists : Bool
  productName : String
  toolFuncsSet : Bool
  ibstatusOutput : Option IbstatusOutput
  ibstatusErr : Option String
  ibstatOutput : Option IbstatOutput
  ibstatErr : Option String
  ibstatErrIsNoCommand : Bool
  hasBucket : Bool
  now : Int
  deriving DecidableEq, Repr

/-- The snapshot-acquisition part of `Check` (component.go lines 207-234):
store both source results, then classify the primary source's error. -/
def acquireCR (input : CheckInput) : CheckResult :=
  let cr := initCheckResult input.now
  let cr := { cr with ibstatusOutput := input.ibstatusOutput, errIbstatus := input.ibstatusErr }
  let cr := { cr with ibstatOutput := input.ibstatOutput, err := input.ibstatErr }
  match cr.err with
  | some _ =>
    if input.ibstatErrIsNoCommand then
      { cr with health := healthyState, reason := "ibstat command not found" }
    else
      { cr with health := unhealthyState, reason := "ibstat command failed" }
  | none => cr

/-- The port-selection step of `Check` (component.go lines 244-248): use
the primary output's ports when the primary output is present, else the
fallback output's ports when that is present. -/
def selectPorts (cr : CheckResult) : CheckResult :=
  match cr.ibstatOutput with
  | some o => { cr with allIBPorts := o.ibPorts }
  | none =>
    match cr.ibstatusOutput with
    | some o => { cr with allIBPorts := o.ibPorts }
    | none => cr

/-- The check result right after threshold evaluation (component.go line
249), before event recording. -/
def checkEvaluated (input : CheckInput) : CheckResult :=
  evaluateThresholds (selectPorts (acquireCR input)) input.thresholds

/-- `component.Check` (component.go lines 165-263): the full cycle over an
explicit bucket state.  Early skip branches in source order; a failing
record step returns immediately (the three temporal analyzers are
skipped); otherwise the three analyzers run in order. -/
def check (input : CheckInput) (b : Bucket) : CheckResult × Bucket :=
  let cr := initCheckResult input.now
  if input.thresholds.isZero then
    ({ cr with reason := reasonThresholdNotSetSkipped, health := healthyState }, b)
  else if !input.nvmlPresent then
    ({ cr with health := healthyState, reason := "NVIDIA NVML instance is nil" }, b)
  else if !input.nvmlExists then
    ({ cr with health := healthyState, reason := "NVIDIA NVML library is not loaded" }, b)
  else if input.productName == "" then
    ({ cr with health := healthyState,
               reason := "NVIDIA NVML is loaded but GPU is not detected (missing product name)" }, b)
  else if !input.toolFuncsSet then
    ({ cr with health := healthyState, reason := "ibstat checker not found" }, b)
  else
    let cr := acquireCR input
    if !input.hasBucket then
      ({ cr with reason := reasonMissingEventBucket, health := healthyState }, b)
    else
      let cr := evaluateThresholds (selectPorts cr) input.thresholds
      match recordIbEvent b cr with
      | (cr2, b2, some _) => (cr2, b2)
      | (cr2, b2, none) =>
        let cr3 := evaluateIbSwitchFault cr2
        let cr4 := evaluateIbPortDrop b2 cr3
        let cr5 := evaluateIbPortFlap b2 cr4
        (cr5, b2)

/-- The component name (`Name`, component.go line 31). -/
def componentName : String := "accelerator-nvidia-infiniband"

/-- `checkResult.Summary` (component.go lines 783-803): the base reason
with the temporal reasons semicolon-joined, in the fixed order
switch-fault, drop, flap. -/
def CheckResult.summary (cr : CheckResult) : String :=
  let r := cr.reason
  let r := if cr.reasonIbSwitchFault != "" then r ++ "; " ++ cr.reasonIbSwitchFault else r
  let r := if cr.reasonIbPortDrop != "" then r ++ "; " ++ cr.reasonIbPortDrop else r
  if cr.reasonIbPortFlap != "" then r ++ "; " ++ cr.reasonIbPortFlap else r

/-- `checkResult.getError` (component.go lines 819-831): the primary
source's error only; the fallback's error is never surfaced. -/
def CheckResult.getError (cr : CheckResult) : String :=
  match cr.err with
  | some e => e
  | none => ""

/-- The normalized health record (`apiv1.HealthState`; `api/v1` is not
under `src/`, shape from the spec's exposed-interface description).
`hasExtraInfo` models whether the serialized extra-info blob is attached. -/
structure HealthState where
  time : Int
  component : String
  name : String
  health : String
  reason : String
  error : String
  suggestedActions : Option (List String)
  hasExtraInfo : Bool
  deriving DecidableEq, Repr

/-- `checkResult.HealthStates` (component.go lines 833-861): a nil check
result yields the single healthy "no data yet" state stamped with the
current time; otherwise the stored result is rendered. -/
def healthStates (cr : Option CheckResult) (now : Int) : List HealthState :=
  match cr with
  | none =>
    [{ time := now, component := componentName, name := componentName,
       health := healthyState, reason := "no data yet", error := "",
       suggestedActions := none, hasExtraInfo := false }]
  | some cr =>
    [{ time := cr.ts, component := componentName, name := componentName,
       health := cr.health, reason := cr.summary, error := cr.getError,
       suggestedActions := cr.suggestedActions,
       hasExtraInfo := cr.ibstatOutput.isSome }]

/-- `component.LastHealthStates` (component.go lines 121-126): render the
stored last check result (possibly still unset). -/
def lastHealthStates (lastCheckResult : Option CheckResult) (now : Int) : List HealthState :=
  healthStates lastCheckResult now

/-- The primary source's port list as the spec's §4.1 sentence reads it
("the primary source's port list if it returned any"). -/
def primarySourcePorts (input : CheckInput) : List IBPort :=
  match input.ibstatOutput with
  | some o => o.ibPorts
  | none => []

/-- The fallback source's port list. -/
def fallbackSourcePorts (input : CheckInput) : List IBPort :=
  match input.ibstatusOutput with
  | some o => o.ibPorts
  | none => []

/-! ### Claim C1: the disabled sentinel short-circuits the whole cycle -/

/-- **C1.** For every policy in which both thresholds are zero, a check
cycle returns a healthy verdict with the threshold-not-set skip reason,
invokes neither data source (the result is a fixed record with both source
outputs `none`, independent of the data-source results carried by
`input`), writes no event to the store (the bucket is returned unchanged),
and runs none of the three temporal analyzers (all three temporal reasons
stay empty), regardless of port data or store state. -/
theorem check_disabled_sentinel (input : CheckInput) (b : Bucket)
    (hz : input.thresholds.isZero = true) :
    check input b =
      ({ initCheckResult input.now with
         reason := reasonThresholdNotSetSkipped, health := healthyState }, b) := by
  simp [check, hz]

/-- Witness for C1 at a concrete input: the thresholds are the zero
sentinel and the cycle short-circuits. -/
theorem check_disabled_sentinel_witness :
    (⟨⟨0, 0⟩, true, true, "H100", true,
       some ⟨[⟨"mlx5_0", "Down", "Polling", 0, "InfiniBand"⟩]⟩, none,
       some ⟨[⟨"mlx5_0", "Down", "Polling", 0⟩]⟩, none, false, true,
       77⟩ : CheckInput).thresholds.isZero = true ∧
    check
        ⟨⟨0, 0⟩, true, true, "H100", true,
         some ⟨[⟨"mlx5_0", "Down", "Polling", 0, "InfiniBand"⟩]⟩, none,
         some ⟨[⟨"mlx5_0", "Down", "Polling", 0⟩]⟩, none, false, true, 77⟩
        ⟨[⟨50, "ibstat", "Info", "m", some []⟩], false, false, false⟩ =
      ({ initCheckResult 77 with
         reason := reasonThresholdNotSetSkipped, health := healthyState },
       ⟨[⟨50, "ibstat", "Info", "m", some []⟩], false, false, false⟩) :=
  ⟨by decide, check_disabled_sentinel _ _ (by decide)⟩

/-! ### Claim C10: the accessor before the first completed cycle -/

/-- **C10.** Rendering the current health before any check cycle has
completed (stored last check result is `none`) returns exactly one health
state, classified healthy with reason "no data yet". -/
theorem lastHealthStates_no_data (now : Int) :
    lastHealthStates none now =
      [{ time := now, component := componentName, name := componentName,
         health := healthyState, reason := "no data yet", error := "",
         suggestedActions := none, hasExtraInfo := false }] ∧
    (lastHealthStates none now).length = 1 ∧
    ∀ hs ∈ lastHealthStates none now,
      hs.health = healthyState ∧ hs.reason = "no data yet" := by
  refine ⟨rfl, rfl, ?_⟩
  intro hs hmem
  simp only [lastHealthStates, healthStates, List.mem_singleton] at hmem
  subst hmem
  exact ⟨rfl, rfl⟩

/-! ### Claim C7: empty port list skips to healthy, never a violation -/

/-- **C7.** With a configured (non-sentinel) policy but an empty port list,
threshold evaluation yields a healthy verdict with the specific
missing-output skip reason, never the unhealthy policy-violation verdict,
for every such policy (including ones with a positive minimum active-port
count). -/
theorem evaluateThresholds_missing_output (cr : CheckResult) (th : ExpectedPortStates)
    (hz : th.isZero = false) (hp : cr.allIBPorts = []) :
    (evaluateThresholds cr th).health = healthyState ∧
    (evaluateThresholds cr th).reason = reasonMissingIbstatIbstatusOutput ∧
    (evaluateThresholds cr th).health ≠ unhealthyState := by
  have hres : evaluateThresholds cr th =
      { cr with reason := reasonMissingIbstatIbstatusOutput, health := healthyState } := by
    simp [evaluateThresholds, hz, hp]
  refine ⟨by rw [hres], by rw [hres], ?_⟩
  rw [hres]
  exact (by decide : healthyState ≠ unhealthyState)

/-- Witness for C7: a policy demanding one active port, no observed ports. -/
theorem evaluateThresholds_missing_output_witness :
    (⟨1, 200⟩ : ExpectedPortStates).isZero = false ∧
    (initCheckResult 5).allIBPorts = [] ∧
    ((evaluateThresholds (initCheckResult 5) ⟨1, 200⟩).health = healthyState ∧
     (evaluateThresholds (initCheckResult 5) ⟨1, 200⟩).reason = reasonMissingIbstatIbstatusOutput ∧
     (evaluateThresholds (initCheckResult 5) ⟨1, 200⟩).health ≠ unhealthyState) :=
  ⟨by decide, by decide, evaluateThresholds_missing_output _ _ (by decide) (by decide)⟩

/-! ### Claim C4: partial primary output overrides the primary error -/

/-- **C4.** When the primary source returned an error together with a
non-empty port list, and evaluating that list against a configured policy
reports no violation, the verdict is healthy and the published error field
is empty: the primary source's error is discarded. -/
theorem evaluateThresholds_partial_output_override (cr : CheckResult)
    (th : ExpectedPortStates)
    (he : cr.err.isSome = true)
    (hp : cr.allIBPorts ≠ [])
    (hz : th.isZero = false)
    (hok : (EvaluatePortsAndRate cr.allIBPorts th.atLeastPorts th.atLeastRate).2 = none) :
    (evaluateThresholds cr th).health = healthyState ∧
    (evaluateThresholds cr th).getError = "" ∧
    (evaluateThresholds cr th).err = none := by
  have hlen : (cr.allIBPorts.length == 0) = false := by
    simp [List.length_eq_zero, hp]
  rcases hE : EvaluatePortsAndRate cr.allIBPorts th.atLeastPorts th.atLeastRate with ⟨u, e⟩
  have he2 : e = none := by rw [hE] at hok; exact hok
  subst he2
  have hres : evaluateThresholds cr th =
      { cr with health := healthyState, suggestedActions := none,
                unhealthyIBPorts := [], reason := reasonNoIbIssueFoundFromIbstat,
                err := none, errIbstatus := none } := by
    simp [evaluateThresholds, hz, hlen, hE, he, healthyState]
  rw [hres]
  exact ⟨rfl, rfl, rfl⟩

/-- A concrete cycle result for the C4 witness: `ibstat` exited nonzero
yet returned one active port. -/
def c4Cr : CheckResult :=
  { initCheckResult 9 with
      err := some "exit status 255",
      allIBPorts := [⟨"mlx5_0", "Active", "LinkUp", 400⟩] }

/-- Witness for C4: the partial port list satisfies the policy, so the
verdict is healthy and the error field empty. -/
theorem evaluateThresholds_partial_output_override_witness :
    c4Cr.err.isSome = true ∧
    ((evaluateThresholds c4Cr ⟨1, 100⟩).health = healthyState ∧
     (evaluateThresholds c4Cr ⟨1, 100⟩).getError = "" ∧
     (evaluateThresholds c4Cr ⟨1, 100⟩).err = none) :=
  ⟨by decide,
   evaluateThresholds_partial_output_override _ _ (by decide) (by decide) (by decide) (by decide)⟩

/-! ### Claim C5: switch-fault reason characterization -/

/-- **C5.** The switch-fault reason is set to exactly
"ib switch fault, all ports down" if and only if the current verdict is
unhealthy, the unhealthy-port set is non-empty, the total port count
observed this cycle is nonzero, and the number of unhealthy ports equals
that total; otherwise it stays empty.  The verdict is one of the two
classifications by this point of the cycle. -/
theorem evaluateIbSwitchFault_characterization (cr : CheckResult)
    (hh : cr.health = healthyState ∨ cr.health = unhealthyState)
    (h0 : cr.reasonIbSwitchFault = "") :
    (evaluateIbSwitchFault cr).reasonIbSwitchFault =
      (if cr.health = unhealthyState ∧ cr.unhealthyIBPorts ≠ [] ∧
          totalPortCount cr ≠ 0 ∧ cr.unhealthyIBPorts.length = totalPortCount cr
       then "ib switch fault, all ports down" else "") := by
  rcases hh with h | h
  · have hg : (cr.health == healthyState) = true := by rw [h]; decide
    have hq : ¬(cr.health = unhealthyState) := by rw [h]; decide
    simp [evaluateIbSwitchFault, hg, h0, hq]
  · have hg : (cr.health == healthyState) = false := by rw [h]; decide
    by_cases hu : cr.unhealthyIBPorts.length = 0
    · have hu' : cr.unhealthyIBPorts = [] := List.length_eq_zero.mp hu
      simp [evaluateIbSwitchFault, hg, hu, h0, hu']
    · have hu' : cr.unhealthyIBPorts ≠ [] := by
        intro hcon; exact hu (by rw [hcon]; rfl)
      by_cases ht : totalPortCount cr = 0
      · simp [evaluateIbSwitchFault, hg, hu, ht, h0]
      · by_cases heq : cr.unhealthyIBPorts.length = totalPortCount cr
        · simp [evaluateIbSwitchFault, hg, hu, ht, heq, h, hu', healthyState, unhealthyState]
        · simp [evaluateIbSwitchFault, hg, hu, ht, heq, h0]

/-- A concrete cycle result for the C5 witness: 2 of 2 observed ports
unhealthy. -/
def c5Cr : CheckResult :=
  { initCheckResult 3 with
      health := unhealthyState,
      ibstatOutput := some ⟨[⟨"a", "Down", "Polling", 0⟩, ⟨"b", "Down", "Polling", 0⟩]⟩,
      unhealthyIBPorts := [⟨"a", "Down", "Polling", 0⟩, ⟨"b", "Down", "Polling", 0⟩] }

/-- Witness for C5: with every observed port unhealthy the switch-fault
reason is set. -/
theorem evaluateIbSwitchFault_characterization_witness :
    (c5Cr.health = healthyState ∨ c5Cr.health = unhealthyState) ∧
    c5Cr.reasonIbSwitchFault = "" ∧
    (evaluateIbSwitchFault c5Cr).reasonIbSwitchFault =
      (if c5Cr.health = unhealthyState ∧ c5Cr.unhealthyIBPorts ≠ [] ∧
          totalPortCount c5Cr ≠ 0 ∧ c5Cr.unhealthyIBPorts.length = totalPortCount c5Cr
       then "ib switch fault, all ports down" else "") :=
  ⟨Or.inr rfl, rfl, evaluateIbSwitchFault_characterization _ (Or.inr rfl) rfl⟩

/-! ### Claim C9: which source's ports feed threshold evaluation

The source condition (component.go lines 244-248) is on the *presence of
the primary output*, not on the primary port list being non-empty: a
present-but-empty primary output is used as-is and the fallback's ports
are ignored, contradicting the claim's "otherwise the fallback source's
port list". -/

/-- The cycle input exhibiting the gap: the primary source returned an
output containing zero ports while the fallback returned one port. -/
def c9Input : CheckInput :=
  ⟨⟨1, 0⟩, true, true, "H100", true,
   some ⟨[⟨"mlx5_0", "Active", "LinkUp", 400, "InfiniBand"⟩]⟩, none,
   some ⟨[]⟩, none, false, true, 1234⟩

/-- **C9, counterexample.** The claim — the evaluated port list is the
primary's whenever the primary returned any ports, and *otherwise the
fallback's* — is false: with a present-but-empty primary output and a
non-empty fallback output, the evaluated list is the primary's empty list,
not the fallback's. -/
theorem selectPorts_claim_counterexample :
    ¬ (∀ input : CheckInput,
        (selectPorts (acquireCR input)).allIBPorts =
          (if (primarySourcePorts input).isEmpty then fallbackSourcePorts input
           else primarySourcePorts input)) := by
  intro h
  exact absurd (h c9Input) (by decide)

/-- **C9, amended.** The port list fed to threshold evaluation is the
primary (ibstat) source's port list whenever the primary returned an
*output* (even one containing no ports), otherwise the fallback
(ibstatus) source's port list whenever the fallback returned an output,
otherwise empty; in particular the fallback's ports are never used when
the primary returned an output. -/
theorem selectPorts_uses_primary_output (input : CheckInput) :
    (selectPorts (acquireCR input)).allIBPorts =
      (match input.ibstatOutput with
       | some o => o.ibPorts
       | none =>
         match input.ibstatusOutput with
         | some o => o.ibPorts
         | none => []) := by
  rcases hi : input.ibstatOutput with _ | o <;>
    rcases hs : input.ibstatusOutput with _ | o' <;>
      rcases he : input.ibstatErr with _ | e <;>
        cases hc : input.ibstatErrIsNoCommand <;>
          simp [selectPorts, acquireCR, initCheckResult, hi, hs, he, hc]

/-! ### Claim C6: store failures escalate and abort temporal analysis -/

/-- `evaluateThresholds` never touches the three temporal reasons. -/
theorem evaluateThresholds_temporal (cr : CheckResult) (th : ExpectedPortStates) :
    (evaluateThresholds cr th).reasonIbSwitchFault = cr.reasonIbSwitchFault ∧
    (evaluateThresholds cr th).reasonIbPortDrop = cr.reasonIbPortDrop ∧
    (evaluateThresholds cr th).reasonIbPortFlap = cr.reasonIbPortFlap := by
  refine ⟨?_, ?_, ?_⟩
  all_goals
    unfold evaluateThresholds
    split
    · rfl
    split
    · rfl
    split
    · rfl
    dsimp only
    split
    · rfl
    · rfl

/-- `selectPorts` never touches the three temporal reasons. -/
theorem selectPorts_temporal (cr : CheckResult) :
    (selectPorts cr).reasonIbSwitchFault = cr.reasonIbSwitchFault ∧
    (selectPorts cr).reasonIbPortDrop = cr.reasonIbPortDrop ∧
    (selectPorts cr).reasonIbPortFlap = cr.reasonIbPortFlap := by
  unfold selectPorts
  split
  · exact ⟨rfl, rfl, rfl⟩
  split
  · exact ⟨rfl, rfl, rfl⟩
  · exact ⟨rfl, rfl, rfl⟩

/-- The acquisition step starts with all three temporal reasons empty. -/
theorem acquireCR_temporal (input : CheckInput) :
    (acquireCR input).reasonIbSwitchFault = "" ∧
    (acquireCR input).reasonIbPortDrop = "" ∧
    (acquireCR input).reasonIbPortFlap = "" := by
  refine ⟨?_, ?_, ?_⟩
  all_goals
    unfold acquireCR initCheckResult
    dsimp only
    split
    · split
      · rfl
      · rfl
    · rfl

/-- By the time the cycle records its event, all three temporal reasons
are still empty. -/
theorem checkEvaluated_temporal (input : CheckInput) :
    (checkEvaluated input).reasonIbSwitchFault = "" ∧
    (checkEvaluated input).reasonIbPortDrop = "" ∧
    (checkEvaluated input).reasonIbPortFlap = "" := by
  obtain ⟨e1, e2, e3⟩ := evaluateThresholds_temporal (selectPorts (acquireCR input)) input.thresholds
  obtain ⟨s1, s2, s3⟩ := selectPorts_temporal (acquireCR input)
  obtain ⟨a1, a2, a3⟩ := acquireCR_temporal input
  refine ⟨?_, ?_, ?_⟩
  · rw [checkEvaluated, e1, s1, a1]
  · rw [checkEvaluated, e2, s2, a2]
  · rw [checkEvaluated, e3, s3, a3]

/-- A failing record step yields an unhealthy result with one of the two
store-error reasons and leaves the temporal reasons untouched. -/
theorem recordIbEvent_error_spec (b : Bucket) (cr cr2 : CheckResult) (b2 : Bucket)
    (e : String) (h : recordIbEvent b cr = (cr2, b2, some e)) :
    cr2.health = unhealthyState ∧
    (cr2.reason = "error finding ibstat event" ∨ cr2.reason = "error inserting ibstat event") ∧
    cr2.reasonIbSwitchFault = cr.reasonIbSwitchFault ∧
    cr2.reasonIbPortDrop = cr.reasonIbPortDrop ∧
    cr2.reasonIbPortFlap = cr.reasonIbPortFlap := by
  unfold recordIbEvent at h
  dsimp only at h
  rcases hf : b.find (convertToIbstatEvent cr) with e' | o
  · rw [hf] at h
    simp only [Prod.mk.injEq] at h
    obtain ⟨hcr, -, -⟩ := h
    subst hcr
    exact ⟨rfl, Or.inl rfl, rfl, rfl, rfl⟩
  · rw [hf] at h
    rcases o with _ | found
    · rcases hi : b.insert (convertToIbstatEvent cr) with e' | b'
      · rw [hi] at h
        simp only [Prod.mk.injEq] at h
        obtain ⟨hcr, -, -⟩ := h
        subst hcr
        exact ⟨rfl, Or.inr rfl, rfl, rfl, rfl⟩
      · rw [hi] at h
        simp only [Prod.mk.injEq] at h
        exact absurd h.2.2 (by simp)
    · simp only [Prod.mk.injEq] at h
      exact absurd h.2.2 (by simp)

/-- **C6.** When the store's duplicate lookup or insert fails during event
recording, the cycle's verdict is unhealthy with a store-error reason
("error finding ibstat event" or "error inserting ibstat event"), the
cycle returns immediately after the record step, and none of the three
temporal analyzers runs: all three temporal reasons stay empty. -/
theorem check_store_error_skips_analysis (input : CheckInput) (b : Bucket)
    (hz : input.thresholds.isZero = false)
    (h1 : input.nvmlPresent = true)
    (h2 : input.nvmlExists = true)
    (h3 : input.productName ≠ "")
    (h4 : input.toolFuncsSet = true)
    (h5 : input.hasBucket = true)
    (hfail : (recordIbEvent b (checkEvaluated input)).2.2 ≠ none) :
    check input b =
      ((recordIbEvent b (checkEvaluated input)).1, (recordIbEvent b (checkEvaluated input)).2.1) ∧
    (check input b).1.health = unhealthyState ∧
    ((check input b).1.reason = "error finding ibstat event" ∨
     (check input b).1.reason = "error inserting ibstat event") ∧
    (check input b).1.reasonIbSwitchFault = "" ∧
    (check input b).1.reasonIbPortDrop = "" ∧
    (check input b).1.reasonIbPortFlap = "" := by
  have hname : (input.productName == "") = false := beq_eq_false_iff_ne.mpr h3
  rcases hR : recordIbEvent b (checkEvaluated input) with ⟨cr2, bb⟩
  rcases bb with ⟨b2, e⟩
  rcases e with _ | err
  · rw [hR] at hfail
    exact absurd rfl hfail
  · have hRR : recordIbEvent b (evaluateThresholds (selectPorts (acquireCR input))
        input.thresholds) = (cr2, b2, some err) := hR
    have hcheck : check input b = (cr2, b2) := by
      simp only [check, hz, h1, h2, hname, h4, h5, Bool.not_true, Bool.false_eq_true,
        if_false, hRR]
    obtain ⟨p1, p2, p3, p4, p5⟩ := recordIbEvent_error_spec b (checkEvaluated input) cr2 b2 err hR
    obtain ⟨t1, t2, t3⟩ := checkEvaluated_temporal input
    rw [hcheck]
    exact ⟨rfl, p1, p2, by rw [p3, t1], by rw [p4, t2], by rw [p5, t3]⟩

/-- A cycle input for the C6 witness: a configured policy with all
preconditions met. -/
def c6Input : CheckInput :=
  ⟨⟨1, 100⟩, true, true, "H100", true, none, none,
   some ⟨[⟨"mlx5_0", "Active", "LinkUp", 400⟩]⟩, none, false, true, 555⟩

/-- A bucket whose duplicate lookup fails, for the C6 witness. -/
def c6Bucket : Bucket := ⟨[], true, false, false⟩

/-- Witness for C6: with a failing store lookup, the cycle is unhealthy
with the find-error reason and no temporal reason is set. -/
theorem check_store_error_skips_analysis_witness :
    (recordIbEvent c6Bucket (checkEvaluated c6Input)).2.2 ≠ none ∧
    (check c6Input c6Bucket =
      ((recordIbEvent c6Bucket (checkEvaluated c6Input)).1,
       (recordIbEvent c6Bucket (checkEvaluated c6Input)).2.1) ∧
     (check c6Input c6Bucket).1.health = unhealthyState ∧
     ((check c6Input c6Bucket).1.reason = "error finding ibstat event" ∨
      (check c6Input c6Bucket).1.reason = "error inserting ibstat event") ∧
     (check c6Input c6Bucket).1.reasonIbSwitchFault = "" ∧
     (check c6Input c6Bucket).1.reasonIbPortDrop = "" ∧
     (check c6Input c6Bucket).1.reasonIbPortFlap = "") :=
  ⟨by decide,
   check_store_error_skips_analysis c6Input c6Bucket (by decide) (by decide) (by decide)
     (by decide) (by decide) (by decide) (by decide)⟩

/-! ### Claim C8: dedup makes recording idempotent under content equivalence -/

/-- The dedup equivalence spelled out on fields. -/
theorem Event.equiv_iff (a b : Event) :
    Event.equiv a b = true ↔
      a.name = b.name ∧ a.typ = b.typ ∧ a.message = b.message ∧ a.ports = b.ports := by
  simp [Event.equiv, Bool.and_eq_true, beq_iff_eq, and_assoc]

/-- Dedup equivalence is reflexive. -/
theorem Event.equiv_refl (a : Event) : Event.equiv a a = true :=
  (Event.equiv_iff a a).mpr ⟨rfl, rfl, rfl, rfl⟩

/-- Dedup equivalence is symmetric. -/
theorem Event.equiv_symm (a b : Event) (h : Event.equiv a b = true) :
    Event.equiv b a = true := by
  rw [Event.equiv_iff] at h ⊢
  exact ⟨h.1.symm, h.2.1.symm, h.2.2.1.symm, h.2.2.2.symm⟩

/-- Dedup equivalence is transitive. -/
theorem Event.equiv_trans (a b c : Event) (h1 : Event.equiv a b = true)
    (h2 : Event.equiv b c = true) : Event.equiv a c = true := by
  rw [Event.equiv_iff] at h1 h2 ⊢
  exact ⟨h1.1.trans h2.1, h1.2.1.trans h2.2.1, h1.2.2.1.trans h2.2.2.1,
         h1.2.2.2.trans h2.2.2.2⟩

/-- **C8.** Recording looks the store up for an equivalent event first and
skips the insert when one is found: starting from a store holding no event
equivalent to the cycle's, the first record inserts exactly one event, and
recording any content-equivalent event afterwards (e.g. the next cycle's,
with a different timestamp) finds it, changes nothing, and leaves exactly
one stored equivalent event. -/
theorem recordIbEvent_dedup_idempotent (b : Bucket) (cr cr2 : CheckResult)
    (hff : b.failFind = false) (hfi : b.failInsert = false)
    (h0 : b.events.countP (fun e => Event.equiv e (convertToIbstatEvent cr)) = 0)
    (heq : Event.equiv (convertToIbstatEvent cr2) (convertToIbstatEvent cr) = true) :
    (recordIbEvent b cr).2.2 = none ∧
    (recordIbEvent b cr).2.1.events = b.events ++ [convertToIbstatEvent cr] ∧
    recordIbEvent (recordIbEvent b cr).2.1 cr2 = (cr2, (recordIbEvent b cr).2.1, none) ∧
    (recordIbEvent b cr).2.1.events.countP
      (fun e => Event.equiv e (convertToIbstatEvent cr)) = 1 := by
  have hnone : ∀ e ∈ b.events, ¬ Event.equiv e (convertToIbstatEvent cr) = true :=
    List.countP_eq_zero.mp h0
  have hfind : b.events.find? (fun e => Event.equiv e (convertToIbstatEvent cr)) = none :=
    List.find?_eq_none.mpr hnone
  have hrec1 : recordIbEvent b cr =
      ({ cr with err := none },
       { b with events := b.events ++ [convertToIbstatEvent cr] }, none) := by
    simp [recordIbEvent, Bucket.find, Bucket.insert, hff, hfi, hfind]
  rw [hrec1]
  refine ⟨rfl, rfl, ?_, ?_⟩
  · have hnone2 : ∀ e ∈ b.events,
        ¬ Event.equiv e (convertToIbstatEvent cr2) = true := by
      intro e he hcon
      exact hnone e he (Event.equiv_trans _ _ _ hcon heq)
    have hfind2 : (b.events ++ [convertToIbstatEvent cr]).find?
        (fun e => Event.equiv e (convertToIbstatEvent cr2)) =
        some (convertToIbstatEvent cr) := by
      rw [List.find?_append, List.find?_eq_none.mpr hnone2]
      simp [Event.equiv_symm _ _ heq]
    simp [recordIbEvent, Bucket.find, hff, hfind2]
  · rw [List.countP_append, h0]
    simp [Event.equiv_refl]

/-- The C8 witness cycle results: identical content, consecutive-cycle
timestamps 60 seconds apart. -/
def c8Cr : CheckResult :=
  { initCheckResult 1000 with
      reason := reasonNoIbIssueFoundFromIbstat,
      allIBPorts := [⟨"mlx5_0", "Active", "LinkUp", 400⟩] }

/-- The second C8 witness cycle result (same content, later timestamp). -/
def c8Cr2 : CheckResult :=
  { initCheckResult 1060 with
      reason := reasonNoIbIssueFoundFromIbstat,
      allIBPorts := [⟨"mlx5_0", "Active", "LinkUp", 400⟩] }

/-- Witness for C8: two consecutive recordings of content-equivalent
events store exactly one event. -/
theorem recordIbEvent_dedup_idempotent_witness :
    (⟨[], false, false, false⟩ : Bucket).events.countP
      (fun e => Event.equiv e (convertToIbstatEvent c8Cr)) = 0 ∧
    Event.equiv (convertToIbstatEvent c8Cr2) (convertToIbstatEvent c8Cr) = true ∧
    ((recordIbEvent ⟨[], false, false, false⟩ c8Cr).2.2 = none ∧
     (recordIbEvent ⟨[], false, false, false⟩ c8Cr).2.1.events =
       (⟨[], false, false, false⟩ : Bucket).events ++ [convertToIbstatEvent c8Cr] ∧
     recordIbEvent (recordIbEvent ⟨[], false, false, false⟩ c8Cr).2.1 c8Cr2 =
       (c8Cr2, (recordIbEvent ⟨[], false, false, false⟩ c8Cr).2.1, none) ∧
     (recordIbEvent ⟨[], false, false, false⟩ c8Cr).2.1.events.countP
       (fun e => Event.equiv e (convertToIbstatEvent c8Cr)) = 1) :=
  ⟨by decide, by decide,
   recordIbEvent_dedup_idempotent _ c8Cr c8Cr2 (by decide) (by decide) (by decide) (by decide)⟩

/-! ### Association-list (Go map) lemmas -/

/-- The key list of a Go-map model. -/
def mapKeys {α : Type} (m : List (String × α)) : List String :=
  m.map (fun p => p.1)

theorem mapKeys_cons {α : Type} (k : String) (v : α) (m : List (String × α)) :
    mapKeys ((k, v) :: m) = k :: mapKeys m := rfl

theorem mapLookup_cons {α : Type} (k : String) (v : α) (m : List (String × α)) (dev : String) :
    mapLookup ((k, v) :: m) dev = if k == dev then some v else mapLookup m dev := by
  by_cases h : (k == dev) = true
  · unfold mapLookup
    rw [List.find?_cons_of_pos _ (by simpa using h), if_pos h]
    rfl
  · unfold mapLookup
    rw [List.find?_cons_of_neg _ (by simpa using h), if_neg h]

theorem mapLookup_append_single_self {α : Type} (m : List (String × α)) (d : String) (v : α) :
    mapLookup (m ++ [(d, v)]) d = (mapLookup m d).or (some v) := by
  unfold mapLookup
  rw [List.find?_append]
  cases hf : m.find? (fun p => p.1 == d)
  · simp [List.find?]
  · simp

theorem mapLookup_append_single_other {α : Type} (m : List (String × α)) (d : String) (v : α)
    (dev : String) (h : dev ≠ d) :
    mapLookup (m ++ [(d, v)]) dev = mapLookup m dev := by
  unfold mapLookup
  rw [List.find?_append]
  have hd : (d == dev) = false := beq_eq_false_iff_ne.mpr (fun hc => h hc.symm)
  have hone : List.find? (fun p => p.1 == dev) [(d, v)] = none := by
    simp [List.find?, hd]
  rw [hone, Option.or_none]

theorem mapErase_cons {α : Type} (k : String) (w : α) (m : List (String × α)) (d : String) :
    mapErase ((k, w) :: m) d =
      (if (k != d) = true then (k, w) :: mapErase m d else mapErase m d) := by
  unfold mapErase
  rw [List.filter_cons]

theorem mapLookup_erase_self {α : Type} (m : List (String × α)) (d : String) :
    mapLookup (mapErase m d) d = none := by
  induction m with
  | nil => rfl
  | cons p m ih =>
    rcases p with ⟨k, w⟩
    rw [mapErase_cons]
    by_cases hp : (k != d) = true
    · have hpd : (k == d) = false := by
        cases hq : (k == d)
        · rfl
        · rw [bne, hq] at hp
          exact absurd hp (by decide)
      rw [if_pos hp, mapLookup_cons, if_neg (by simp [hpd]), ih]
    · rw [if_neg hp]
      exact ih

theorem mapLookup_erase_other {α : Type} (m : List (String × α)) (d dev : String)
    (h : dev ≠ d) :
    mapLookup (mapErase m d) dev = mapLookup m dev := by
  induction m with
  | nil => rfl
  | cons p m ih =>
    rcases p with ⟨k, w⟩
    rw [mapErase_cons]
    by_cases hp : (k != d) = true
    · rw [if_pos hp, mapLookup_cons, mapLookup_cons, ih]
    · have hk : k = d := by
        cases hq : (k == d)
        · rw [bne, hq] at hp
          exact absurd rfl hp
        · exact beq_iff_eq.mp hq
      have hkdev : (k == dev) = false :=
        beq_eq_false_iff_ne.mpr (by rw [hk]; exact fun hc => h hc.symm)
      rw [if_neg hp, ih, mapLookup_cons, if_neg (by simp [hkdev])]

theorem mapLookup_eq_none_of_any_eq_false {α : Type} (m : List (String × α)) (d : String)
    (h : m.any (fun p => p.1 == d) = false) :
    mapLookup m d = none := by
  unfold mapLookup
  rw [List.find?_eq_none.mpr]
  · rfl
  · intro p hp hcon
    have hx : m.any (fun p => p.1 == d) = true := List.any_eq_true.mpr ⟨p, hp, hcon⟩
    rw [h] at hx
    exact absurd hx (by decide)

theorem mapLookup_isSome_of_any_eq_true {α : Type} (m : List (String × α)) (d : String)
    (h : m.any (fun p => p.1 == d) = true) :
    (mapLookup m d).isSome = true := by
  obtain ⟨p, hp, hpred⟩ := List.any_eq_true.mp h
  unfold mapLookup
  have hs : (m.find? (fun p => p.1 == d)).isSome = true :=
    List.find?_isSome.mpr ⟨p, hp, hpred⟩
  cases hf : m.find? (fun p => p.1 == d)
  · rw [hf] at hs
    simp at hs
  · simp

theorem mapLookup_insertIfAbsent_self {α : Type} (m : List (String × α)) (d : String) (v : α) :
    mapLookup (mapInsertIfAbsent m d v) d = (mapLookup m d).or (some v) := by
  unfold mapInsertIfAbsent
  by_cases ha : (m.any (fun p => p.1 == d)) = true
  · rw [if_pos ha]
    have hs := mapLookup_isSome_of_any_eq_true m d ha
    cases hf : mapLookup m d
    · rw [hf] at hs
      simp at hs
    · simp
  · rw [if_neg ha]
    exact mapLookup_append_single_self m d v

theorem mapLookup_insertIfAbsent_other {α : Type} (m : List (String × α)) (d : String) (v : α)
    (dev : String) (h : dev ≠ d) :
    mapLookup (mapInsertIfAbsent m d v) dev = mapLookup m dev := by
  unfold mapInsertIfAbsent
  by_cases ha : (m.any (fun p => p.1 == d)) = true
  · rw [if_pos ha]
  · rw [if_neg ha]
    exact mapLookup_append_single_other m d v dev h

theorem mapLookup_mapReplace_self {α : Type} (m : List (String × α)) (d : String) (v : α) :
    mapLookup (m.map (fun p => if p.1 == d then (d, v) else p)) d =
      (if m.any (fun p => p.1 == d) then some v else none) := by
  induction m with
  | nil => rfl
  | cons p m ih =>
    rcases p with ⟨k, w⟩
    rw [List.map_cons, List.any_cons]
    by_cases hp : (k == d) = true
    · have : (if (k, w).1 == d then (d, v) else (k, w)) = (d, v) := by
        simp [hp]
      rw [this, mapLookup_cons, if_pos (by simp), if_pos (by simp [hp])]
    · have hpf : (k == d) = false := by
        cases hq : (k == d)
        · rfl
        · exact absurd hq hp
      have : (if (k, w).1 == d then (d, v) else (k, w)) = (k, w) := by
        simp [hpf]
      rw [this, mapLookup_cons, if_neg (by simp [hpf]), ih, hpf, Bool.false_or]

theorem mapLookup_mapReplace_other {α : Type} (m : List (String × α)) (d : String) (v : α)
    (dev : String) (h : dev ≠ d) :
    mapLookup (m.map (fun p => if p.1 == d then (d, v) else p)) dev = mapLookup m dev := by
  induction m with
  | nil => rfl
  | cons p m ih =>
    rcases p with ⟨k, w⟩
    rw [List.map_cons]
    by_cases hp : (k == d) = true
    · have hk : k = d := beq_iff_eq.mp hp
      have hdev : (d == dev) = false := beq_eq_false_iff_ne.mpr (fun hc => h hc.symm)
      have hkdev : (k == dev) = false := by rw [hk]; exact hdev
      have : (if (k, w).1 == d then (d, v) else (k, w)) = (d, v) := by
        simp [hp]
      rw [this, mapLookup_cons, if_neg (by simp [hdev]), mapLookup_cons,
          if_neg (by simp [hkdev]), ih]
    · have hpf : (k == d) = false := by
        cases hq : (k == d)
        · rfl
        · exact absurd hq hp
      have : (if (k, w).1 == d then (d, v) else (k, w)) = (k, w) := by
        simp [hpf]
      rw [this, mapLookup_cons, mapLookup_cons, ih]

theorem mapLookup_set_self {α : Type} (m : List (String × α)) (d : String) (v : α) :
    mapLookup (mapSet m d v) d = some v := by
  unfold mapSet
  by_cases ha : (m.any (fun p => p.1 == d)) = true
  · rw [if_pos ha, mapLookup_mapReplace_self, if_pos ha]
  · have haf : m.any (fun p => p.1 == d) = false := by
      cases hq : m.any (fun p => p.1 == d)
      · rfl
      · exact absurd hq ha
    rw [if_neg ha, mapLookup_append_single_self, mapLookup_eq_none_of_any_eq_false m d haf]
    rfl

theorem mapLookup_set_other {α : Type} (m : List (String × α)) (d : String) (v : α)
    (dev : String) (h : dev ≠ d) :
    mapLookup (mapSet m d v) dev = mapLookup m dev := by
  unfold mapSet
  by_cases ha : (m.any (fun p => p.1 == d)) = true
  · rw [if_pos ha]
    exact mapLookup_mapReplace_other m d v dev h
  · rw [if_neg ha]
    exact mapLookup_append_single_other m d v dev h

theorem keys_nodup_erase {α : Type} (m : List (String × α)) (d : String)
    (h : (mapKeys m).Nodup) : (mapKeys (mapErase m d)).Nodup := by
  apply List.Nodup.sublist _ h
  exact (List.filter_sublist m).map (fun p => p.1)

theorem keys_nodup_insertIfAbsent {α : Type} (m : List (String × α)) (d : String) (v : α)
    (h : (mapKeys m).Nodup) : (mapKeys (mapInsertIfAbsent m d v)).Nodup := by
  unfold mapInsertIfAbsent
  by_cases ha : (m.any (fun p => p.1 == d)) = true
  · rw [if_pos ha]
    exact h
  · rw [if_neg ha]
    unfold mapKeys
    rw [List.map_append, List.nodup_append]
    refine ⟨h, by simp, ?_⟩
    intro x hx hxd
    have hxd' : x = d := by simpa using hxd
    obtain ⟨p, hp, hpx⟩ := List.mem_map.mp hx
    exact ha (List.any_eq_true.mpr ⟨p, hp, beq_iff_eq.mpr (hpx.trans hxd')⟩)

theorem keys_nodup_set {α : Type} (m : List (String × α)) (d : String) (v : α)
    (h : (mapKeys m).Nodup) : (mapKeys (mapSet m d v)).Nodup := by
  unfold mapSet
  by_cases ha : (m.any (fun p => p.1 == d)) = true
  · rw [if_pos ha]
    have hmk : mapKeys (m.map (fun p => if p.1 == d then (d, v) else p)) = mapKeys m := by
      unfold mapKeys
      rw [List.map_map]
      apply List.map_congr_left
      intro p hp
      by_cases hq : (p.1 == d) = true
      · have : p.1 = d := beq_iff_eq.mp hq
        simp [hq, this]
      · have hne : p.1 ≠ d := by simpa using hq
        simp [hne]
    rw [hmk]
    exact h
  · rw [if_neg ha]
    unfold mapKeys
    rw [List.map_append, List.nodup_append]
    refine ⟨h, by simp, ?_⟩
    intro x hx hxd
    have hxd' : x = d := by simpa using hxd
    obtain ⟨p, hp, hpx⟩ := List.mem_map.mp hx
    exact ha (List.any_eq_true.mpr ⟨p, hp, beq_iff_eq.mpr (hpx.trans hxd')⟩)

theorem mapLookup_eq_some_iff_mem {α : Type} (m : List (String × α))
    (h : (mapKeys m).Nodup) (dev : String) (v : α) :
    mapLookup m dev = some v ↔ (dev, v) ∈ m := by
  induction m with
  | nil => simp [mapLookup]
  | cons p m ih =>
    rcases p with ⟨k, w⟩
    rw [mapKeys_cons] at h
    have hk : k ∉ mapKeys m := (List.nodup_cons.mp h).1
    have hnd : (mapKeys m).Nodup := (List.nodup_cons.mp h).2
    rw [mapLookup_cons]
    by_cases hb : (k == dev) = true
    · have hkd : k = dev := beq_iff_eq.mp hb
      subst hkd
      rw [if_pos hb]
      constructor
      · intro h'
        have hwv : w = v := by injection h'
        subst hwv
        exact List.mem_cons_self _ _
      · intro h'
        rcases List.mem_cons.mp h' with h' | h'
        · have hvw : v = w := congrArg Prod.snd h'
          rw [hvw]
        · exact absurd (List.mem_map.mpr ⟨(k, v), h', rfl⟩) hk
    · have hne : k ≠ dev := by simpa using hb
      rw [if_neg hb, ih hnd, List.mem_cons]
      constructor
      · exact fun h' => Or.inr h'
      · rintro (h' | h')
        · exact absurd (congrArg Prod.fst h').symm hne
        · exact h'

/-! ### Port-drop scan characterization -/

/-- The state an event records for a device (the spec's data model assumes
device names are unique within one snapshot, so at most one record per
device is meaningful). -/
def devState (ev : Event) (dev : String) : Option String :=
  ((parseIBPortsFromEvent ev).find? (fun p => p.device == dev)).map (fun p => p.state)

/-- The event does not contradict "still down" for the device: it either
does not record the device or records it as "Down". -/
def devNotOther (ev : Event) (dev : String) : Bool :=
  match devState ev dev with
  | some s => s == "Down"
  | none => true

theorem foldl_dropPort_lookup_not_mem (ports : List IBPort) (t : Int)
    (m : List (String × Int)) (dev : String)
    (h : ∀ q ∈ ports, q.device ≠ dev) :
    mapLookup (ports.foldl (dropPort t) m) dev = mapLookup m dev := by
  induction ports generalizing m with
  | nil => rfl
  | cons p ps ih =>
    rw [List.foldl_cons, ih _ (fun q hq => h q (List.mem_cons_of_mem _ hq))]
    have hpd : dev ≠ p.device := fun hc => h p (List.mem_cons_self _ _) hc.symm
    unfold dropPort
    by_cases hs : (p.state != "Down") = true
    · rw [if_pos hs]
      exact mapLookup_erase_other m p.device dev hpd
    · rw [if_neg hs]
      exact mapLookup_insertIfAbsent_other m p.device t dev hpd

theorem foldl_dropPort_lookup (ports : List IBPort) (t : Int) (m : List (String × Int))
    (dev : String) (hu : (ports.map (fun p => p.device)).Nodup) :
    mapLookup (ports.foldl (dropPort t) m) dev =
      (match ports.find? (fun p => p.device == dev) with
       | none => mapLookup m dev
       | some p => if p.state == "Down" then (mapLookup m dev).or (some t) else none) := by
  induction ports generalizing m with
  | nil => rfl
  | cons p ps ih =>
    rw [List.foldl_cons]
    have hu' : (ps.map (fun p => p.device)).Nodup := (List.nodup_cons.mp hu).2
    by_cases hd : (p.device == dev) = true
    · have hdev : p.device = dev := beq_iff_eq.mp hd
      have hfind : List.find? (fun q => q.device == dev) (p :: ps) = some p := by
        simp [List.find?, hd]
      rw [hfind]
      have hnone : ∀ q ∈ ps, q.device ≠ dev := by
        intro q hq hc
        have hmem : p.device ∈ ps.map (fun p => p.device) := by
          rw [hdev, ← hc]
          exact List.mem_map.mpr ⟨q, hq, rfl⟩
        exact (List.nodup_cons.mp hu).1 hmem
      rw [foldl_dropPort_lookup_not_mem ps t _ dev hnone]
      dsimp only
      unfold dropPort
      by_cases hs : (p.state != "Down") = true
      · have hsd : (p.state == "Down") = false := by
          cases hq : (p.state == "Down")
          · rfl
          · rw [bne, hq] at hs
            exact absurd hs (by decide)
        rw [if_pos hs, hsd, if_neg (by simp), hdev]
        exact mapLookup_erase_self m dev
      · have hsd : (p.state == "Down") = true := by
          cases hq : (p.state == "Down")
          · exfalso
            apply hs
            rw [bne, hq]
            rfl
          · rfl
        rw [if_neg hs, hsd, if_pos (by simp), hdev]
        exact mapLookup_insertIfAbsent_self m dev t
    · have hdf : (p.device == dev) = false := by
        cases hq : (p.device == dev)
        · rfl
        · exact absurd hq hd
      have hfind : List.find? (fun q => q.device == dev) (p :: ps) =
          List.find? (fun q => q.device == dev) ps := by
        simp [List.find?, hdf]
      rw [hfind, ih _ hu']
      have hpd : dev ≠ p.device := by
        intro hc
        rw [hc] at hd
        exact hd (by simp)
      have hlk : mapLookup (dropPort t m p) dev = mapLookup m dev := by
        unfold dropPort
        by_cases hs : (p.state != "Down") = true
        · rw [if_pos hs]
          exact mapLookup_erase_other m p.device dev hpd
        · rw [if_neg hs]
          exact mapLookup_insertIfAbsent_other m p.device t dev hpd
      rw [hlk]

theorem dropEvent_lookup (ev : Event) (m : List (String × Int)) (dev : String)
    (hu : ((parseIBPortsFromEvent ev).map (fun p => p.device)).Nodup) :
    mapLookup (dropEvent m ev) dev =
      (match devState ev dev with
       | none => mapLookup m dev
       | some s => if s == "Down" then (mapLookup m dev).or (some ev.time) else none) := by
  unfold dropEvent devState
  rw [foldl_dropPort_lookup _ _ _ _ hu]
  cases hf : (parseIBPortsFromEvent ev).find? (fun p => p.device == dev)
  · rfl
  · rfl

theorem foldl_dropPort_keys (ports : List IBPort) (t : Int) (m : List (String × Int))
    (h : (mapKeys m).Nodup) : (mapKeys (ports.foldl (dropPort t) m)).Nodup := by
  induction ports generalizing m with
  | nil => exact h
  | cons p ps ih =>
    rw [List.foldl_cons]
    apply ih
    unfold dropPort
    by_cases hs : (p.state != "Down") = true
    · rw [if_pos hs]
      exact keys_nodup_erase m p.device h
    · rw [if_neg hs]
      exact keys_nodup_insertIfAbsent m p.device t h

theorem buildDroppedSince_keys (evs : List Event) :
    (mapKeys (buildDroppedSince evs)).Nodup := by
  suffices h : ∀ m : List (String × Int), (mapKeys m).Nodup →
      (mapKeys (evs.foldl dropEvent m)).Nodup by
    exact h [] (by simp [mapKeys])
  induction evs with
  | nil => exact fun m hm => hm
  | cons ev evs ih =>
    intro m hm
    rw [List.foldl_cons]
    exact ih _ (foldl_dropPort_keys _ _ _ hm)

/-- The per-device tracking the ascending `droppedSince` scan performs,
re-expressed as a recursion over the reversed event list. -/
def trackedDownRev (dev : String) : List Event → Option Int
  | [] => none
  | e :: rest =>
    match devState e dev with
    | none => trackedDownRev dev rest
    | some s => if s == "Down" then (trackedDownRev dev rest).or (some e.time) else none

/-- The per-device value the `droppedSince` scan tracks over an ascending
event list. -/
def trackedDown (dev : String) (evs : List Event) : Option Int :=
  trackedDownRev dev evs.reverse

theorem trackedDown_concat (dev : String) (evs : List Event) (e : Event) :
    trackedDown dev (evs ++ [e]) =
      (match devState e dev with
       | none => trackedDown dev evs
       | some s => if s == "Down" then (trackedDown dev evs).or (some e.time) else none) := by
  unfold trackedDown
  rw [List.reverse_append]
  rfl

theorem buildDroppedSince_lookup (evs : List Event) (dev : String)
    (hu : ∀ ev ∈ evs, ((parseIBPortsFromEvent ev).map (fun p => p.device)).Nodup) :
    mapLookup (buildDroppedSince evs) dev = trackedDown dev evs := by
  induction evs using List.reverseRecOn with
  | nil => rfl
  | append_singleton evs e ih =>
    have hbuild : buildDroppedSince (evs ++ [e]) = dropEvent (buildDroppedSince evs) e := by
      unfold buildDroppedSince
      rw [List.foldl_append]
      rfl
    rw [hbuild, dropEvent_lookup _ _ _ (hu e (by simp)), trackedDown_concat]
    have ih' := ih (fun ev hev => hu ev (by simp [hev]))
    cases devState e dev
    · exact ih'
    · rw [ih']

/-! ### Claim-side first-down characterization (C2) -/

/-- The i-th event records the device as "Down" and no later event in the
window records it in a different state. -/
def stableDownAt (evs : List Event) (dev : String) (i : Nat) : Bool :=
  decide (i < evs.length) &&
  (devState (evs.getD i dummyEvent) dev == some "Down") &&
  (List.range evs.length).all (fun j =>
    if i < j then devNotOther (evs.getD j dummyEvent) dev else true)

/-- The first (ascending-scan) index at which the device went down and
stayed down through the rest of the window. -/
def firstStableIdx? (evs : List Event) (dev : String) : Option Nat :=
  (List.range evs.length).find? (stableDownAt evs dev)

theorem getD_concat_lt (evs : List Event) (e : Event) (i : Nat) (h : i < evs.length) :
    (evs ++ [e]).getD i dummyEvent = evs.getD i dummyEvent := by
  induction evs generalizing i with
  | nil => exact absurd h (by simp)
  | cons x xs ih =>
    cases i
    · rfl
    · exact ih _ (Nat.lt_of_succ_lt_succ h)

theorem getD_concat_length (evs : List Event) (e : Event) :
    (evs ++ [e]).getD evs.length dummyEvent = e := by
  induction evs with
  | nil => rfl
  | cons x xs ih => exact ih

theorem all_congruence {α : Type} (f g : α → Bool) :
    ∀ ys : List α, (∀ a ∈ ys, f a = g a) → ys.all f = ys.all g
  | [], _ => rfl
  | y :: rest, hfg => by
    rw [List.all_cons, List.all_cons, hfg y (by simp),
        all_congruence f g rest (fun a ha => hfg a (by simp [ha]))]

theorem find?_congruence {α : Type} (f g : α → Bool) :
    ∀ ys : List α, (∀ a ∈ ys, f a = g a) → ys.find? f = ys.find? g
  | [], _ => rfl
  | y :: rest, hfg => by
    have hy := hfg y (List.mem_cons_self _ _)
    by_cases hp : f y = true
    · rw [List.find?_cons_of_pos _ hp, List.find?_cons_of_pos _ (by rw [← hy]; exact hp)]
    · have hpf : f y = false := by
        cases hq : f y
        · rfl
        · exact absurd hq hp
      rw [List.find?_cons_of_neg _ (by simp [hpf]),
          List.find?_cons_of_neg _ (by rw [← hy]; simp [hpf]),
          find?_congruence f g rest (fun a ha => hfg a (by simp [ha]))]

theorem stableDownAt_concat_lt (evs : List Event) (e : Event) (dev : String) (i : Nat)
    (h : i < evs.length) :
    stableDownAt (evs ++ [e]) dev i = (stableDownAt evs dev i && devNotOther e dev) := by
  unfold stableDownAt
  have hlen : (evs ++ [e]).length = evs.length + 1 := by simp
  have h1 : decide (i < (evs ++ [e]).length) = true := by
    simp only [hlen, decide_eq_true_eq]
    omega
  have h2 : decide (i < evs.length) = true := by
    simp only [decide_eq_true_eq]
    exact h
  rw [getD_concat_lt evs e i h, h1, h2]
  have hall : (List.range (evs ++ [e]).length).all
      (fun j => if i < j then devNotOther ((evs ++ [e]).getD j dummyEvent) dev else true) =
      ((List.range evs.length).all
        (fun j => if i < j then devNotOther (evs.getD j dummyEvent) dev else true) &&
       devNotOther e dev) := by
    rw [hlen, List.range_succ, List.all_append]
    congr 1
    · apply all_congruence
      intro j hj
      rw [getD_concat_lt evs e j (List.mem_range.mp hj)]
    · rw [List.all_cons, List.all_nil, Bool.and_true, if_pos h, getD_concat_length]
  rw [hall, Bool.true_and, Bool.and_assoc]

theorem stableDownAt_concat_length (evs : List Event) (e : Event) (dev : String) :
    stableDownAt (evs ++ [e]) dev evs.length = (devState e dev == some "Down") := by
  unfold stableDownAt
  have hlen : (evs ++ [e]).length = evs.length + 1 := by simp
  have h1 : decide (evs.length < (evs ++ [e]).length) = true := by
    simp only [hlen, decide_eq_true_eq]
    omega
  rw [getD_concat_length, h1, Bool.true_and]
  have hall : (List.range (evs ++ [e]).length).all
      (fun j => if evs.length < j then devNotOther ((evs ++ [e]).getD j dummyEvent) dev
                else true) = true := by
    rw [List.all_eq_true]
    intro j hj
    have hjlt : j < evs.length + 1 := by
      rw [← hlen]
      exact List.mem_range.mp hj
    rw [if_neg (by omega)]
  rw [hall, Bool.and_true]

theorem trackedDown_eq_firstStable (dev : String) (evs : List Event) :
    trackedDown dev evs =
      (firstStableIdx? evs dev).map (fun i => (evs.getD i dummyEvent).time) := by
  induction evs using List.reverseRecOn with
  | nil => rfl
  | append_singleton evs e ih =>
    rw [trackedDown_concat]
    have hrange : List.range (evs ++ [e]).length =
        List.range evs.length ++ [evs.length] := by
      simp [List.range_succ]
    cases hds : devState e dev with
    | none =>
      have hno : devNotOther e dev = true := by simp [devNotOther, hds]
      have hsn : stableDownAt (evs ++ [e]) dev evs.length = false := by
        rw [stableDownAt_concat_length, hds]
        rfl
      have hcong : ∀ i ∈ List.range evs.length,
          stableDownAt (evs ++ [e]) dev i = stableDownAt evs dev i := by
        intro i hi
        rw [stableDownAt_concat_lt evs e dev i (List.mem_range.mp hi), hno, Bool.and_true]
      have hfs : firstStableIdx? (evs ++ [e]) dev = firstStableIdx? evs dev := by
        unfold firstStableIdx?
        rw [hrange, List.find?_append, find?_congruence _ _ _ hcong]
        have hone : List.find? (stableDownAt (evs ++ [e]) dev) [evs.length] = none := by
          simp [List.find?, hsn]
        rw [hone, Option.or_none]
      rw [hfs, ih]
      cases hfo : firstStableIdx? evs dev with
      | none => rfl
      | some i =>
        have hi : i < evs.length := by
          unfold firstStableIdx? at hfo
          exact List.mem_range.mp (List.mem_of_find?_eq_some hfo)
        simp only [Option.map_some']
        rw [getD_concat_lt evs e i hi]
    | some s =>
      by_cases hsd : (s == "Down") = true
      · have hno : devNotOther e dev = true := by simp [devNotOther, hds, hsd]
        have hsn : stableDownAt (evs ++ [e]) dev evs.length = true := by
          rw [stableDownAt_concat_length, hds]
          simpa using hsd
        have hcong : ∀ i ∈ List.range evs.length,
            stableDownAt (evs ++ [e]) dev i = stableDownAt evs dev i := by
          intro i hi
          rw [stableDownAt_concat_lt evs e dev i (List.mem_range.mp hi), hno, Bool.and_true]
        have hfs : firstStableIdx? (evs ++ [e]) dev =
            (firstStableIdx? evs dev).or (some evs.length) := by
          unfold firstStableIdx?
          rw [hrange, List.find?_append, find?_congruence _ _ _ hcong]
          congr 1
          simp [List.find?, hsn]
        dsimp only
        rw [if_pos hsd, hfs, ih]
        cases hfo : firstStableIdx? evs dev with
        | none =>
          simp [getD_concat_length]
        | some i =>
          have hi : i < evs.length := by
            unfold firstStableIdx? at hfo
            exact List.mem_range.mp (List.mem_of_find?_eq_some hfo)
          show some ((evs.getD i dummyEvent).time) =
            some (((evs ++ [e]).getD i dummyEvent).time)
          rw [getD_concat_lt evs e i hi]
      · have hsdf : (s == "Down") = false := by
          cases hq : (s == "Down")
          · rfl
          · exact absurd hq hsd
        have hfs : firstStableIdx? (evs ++ [e]) dev = none := by
          unfold firstStableIdx?
          rw [List.find?_eq_none]
          intro j hj
          have hjlt : j < (evs ++ [e]).length := List.mem_range.mp hj
          by_cases hjl : j < evs.length
          · rw [stableDownAt_concat_lt evs e dev j hjl]
            have hnof : devNotOther e dev = false := by
              simp [devNotOther, hds, hsdf]
            rw [hnof, Bool.and_false]
            simp
          · have hje : j = evs.length := by
              simp only [List.length_append, List.length_cons, List.length_nil] at hjlt
              omega
            subst hje
            rw [stableDownAt_concat_length, hds]
            simp [hsdf]
        dsimp only
        rw [if_neg hsd, hfs]
        rfl

theorem readAllIbstatEvents_ok (b : Bucket) (ts : Int) (hfg : b.failGet = false) :
    readAllIbstatEvents b (ts - 600) = Except.ok (ibstatEventsInWindow b ts) := by
  unfold readAllIbstatEvents Bucket.get ibstatEventsInWindow
  rw [if_neg (by simp [hfg])]

theorem dropMsgsOf_mem (ts : Int) (ds : List (String × Int))
    (hnd : (mapKeys ds).Nodup) (m : String) :
    m ∈ dropMsgsOf ts ds ↔
      ∃ dev t, mapLookup ds dev = some t ∧ 240 ≤ ts - t ∧
        m = dev ++ " dropped " ++ relTime t ts := by
  unfold dropMsgsOf
  rw [List.mem_filterMap]
  constructor
  · rintro ⟨⟨dev, t⟩, hmem, hf⟩
    dsimp only at hf
    by_cases h1 : ts - t < 0
    · rw [if_pos h1] at hf
      exact absurd hf (by simp)
    by_cases h2 : ts - t < 240
    · rw [if_neg h1, if_pos h2] at hf
      exact absurd hf (by simp)
    rw [if_neg h1, if_neg h2] at hf
    have hm : dev ++ " dropped " ++ relTime t ts = m := by injection hf
    exact ⟨dev, t, (mapLookup_eq_some_iff_mem ds hnd dev t).mpr hmem, by omega, hm.symm⟩
  · rintro ⟨dev, t, hlk, hge, hm⟩
    refine ⟨(dev, t), (mapLookup_eq_some_iff_mem ds hnd dev t).mp hlk, ?_⟩
    dsimp only
    rw [if_neg (by omega), if_neg (by omega), hm]

/-- **C2.** When the verdict is unhealthy and the 10-minute window yields
more than one event (or one event whose timestamp differs from the
cycle's), a message appears in the port-drop reason exactly for the
devices with a first stable-down index — some event records the device as
"Down", no later window event records it in a different state, and the
index is the first such — whose timestamp is at least 4 minutes (240 s)
before the cycle's timestamp; the per-device "<device> dropped
<relative-time>" messages are lexicographically sorted and joined after
the prefix "ib port drop -- " (an empty message set leaves the reason
empty).  Device names are unique within each event's payload, as the
spec's data model assumes. -/
theorem evaluateIbPortDrop_characterization (b : Bucket) (cr : CheckResult)
    (evs : List Event)
    (hevs : evs = ibstatEventsInWindow b cr.ts)
    (hh : cr.health = unhealthyState)
    (hts : cr.ts ≠ 0)
    (hfg : b.failGet = false)
    (h0 : cr.reasonIbPortDrop = "")
    (hn : 1 < evs.length ∨
          (evs.length = 1 ∧ (evs.headD dummyEvent).time ≠ cr.ts))
    (hu : ∀ ev ∈ evs, ((parseIBPortsFromEvent ev).map (fun p => p.device)).Nodup) :
    ∃ msgs : List String,
      List.Sorted (fun a b => a ≤ b) msgs ∧
      (∀ m, m ∈ msgs ↔ ∃ dev i,
        firstStableIdx? evs dev = some i ∧
        240 ≤ cr.ts - (evs.getD i dummyEvent).time ∧
        m = dev ++ " dropped " ++ relTime (evs.getD i dummyEvent).time cr.ts) ∧
      (evaluateIbPortDrop b cr).reasonIbPortDrop =
        (if msgs.isEmpty then ""
         else "ib port drop -- " ++ String.intercalate ", " msgs) := by
  have hhg : (cr.health == healthyState) = false := by rw [hh]; decide
  have hts0 : (cr.ts == 0) = false := beq_eq_false_iff_ne.mpr hts
  have hlen0 : (evs.length == 0) = false := by
    rcases hn with hn | ⟨hn, -⟩
    · exact beq_eq_false_iff_ne.mpr (by omega)
    · exact beq_eq_false_iff_ne.mpr (by omega)
  have hguard2 : (evs.length == 1 && cr.ts == (evs.headD dummyEvent).time) = false := by
    rcases hn with hn | ⟨hn1, hn2⟩
    · have : (evs.length == 1) = false := beq_eq_false_iff_ne.mpr (by omega)
      rw [this, Bool.false_and]
    · have : (cr.ts == (evs.headD dummyEvent).time) = false :=
        beq_eq_false_iff_ne.mpr (fun hc => hn2 hc.symm)
      rw [this, Bool.and_false]
  have hres : evaluateIbPortDrop b cr =
      (if (dropMsgsOf cr.ts (buildDroppedSince evs)).length == 0 then cr
       else { cr with
                reasonIbPortDrop := "ib port drop -- " ++ String.intercalate ", " (sortStrings (dropMsgsOf cr.ts (buildDroppedSince evs))) }) := by
    unfold evaluateIbPortDrop
    rw [if_neg (by simp [hhg]), if_neg (by simp [hts0]), readAllIbstatEvents_ok b cr.ts hfg,
        ← hevs]
    dsimp only
    rw [if_neg (by rw [hlen0]; decide), if_neg (by rw [hguard2]; decide)]
  have hlkm : ∀ dev, mapLookup (buildDroppedSince evs) dev =
      (firstStableIdx? evs dev).map (fun i => (evs.getD i dummyEvent).time) :=
    fun dev => (buildDroppedSince_lookup evs dev hu).trans (trackedDown_eq_firstStable dev evs)
  refine ⟨sortStrings (dropMsgsOf cr.ts (buildDroppedSince evs)),
    List.sorted_insertionSort _ _, ?_, ?_⟩
  · intro m
    simp only [sortStrings]
    rw [(List.perm_insertionSort (fun a b => a ≤ b)
          (dropMsgsOf cr.ts (buildDroppedSince evs))).mem_iff,
        dropMsgsOf_mem _ _ (buildDroppedSince_keys evs) m]
    constructor
    · rintro ⟨dev, t, hlk, hge, hm⟩
      rw [hlkm dev] at hlk
      obtain ⟨i, hfs, hti⟩ := Option.map_eq_some'.mp hlk
      refine ⟨dev, i, hfs, ?_, ?_⟩
      · rw [hti]
        exact hge
      · rw [hti]
        exact hm
    · rintro ⟨dev, i, hfs, hge, hm⟩
      refine ⟨dev, (evs.getD i dummyEvent).time, ?_, hge, hm⟩
      rw [hlkm dev, hfs]
      rfl
  · rw [hres]
    by_cases hz : (dropMsgsOf cr.ts (buildDroppedSince evs)).length = 0
    · have hnil : dropMsgsOf cr.ts (buildDroppedSince evs) = [] :=
        List.length_eq_zero.mp hz
      rw [if_pos (by simp [hz]), hnil]
      have : sortStrings ([] : List String) = [] := rfl
      rw [this]
      exact h0
    · rw [if_neg (by simp [hz])]
      have hlen : (sortStrings (dropMsgsOf cr.ts (buildDroppedSince evs))).length ≠ 0 := by
        simp only [sortStrings]
        rw [(List.perm_insertionSort (fun a b => a ≤ b)
              (dropMsgsOf cr.ts (buildDroppedSince evs))).length_eq]
        exact hz
      have hne : (sortStrings (dropMsgsOf cr.ts (buildDroppedSince evs))).isEmpty = false := by
        cases hq : sortStrings (dropMsgsOf cr.ts (buildDroppedSince evs))
        · rw [hq] at hlen
          exact absurd rfl hlen
        · rfl
      rw [if_neg (by simp [hne])]

/-- The C2 witness bucket: one device continuously down across two stored
events 400 and 100 seconds before the cycle. -/
def c2Bucket : Bucket :=
  ⟨[⟨600, "ibstat", "Warning", "m", some [⟨"mlx5_0", "Down", "", 0⟩]⟩,
    ⟨900, "ibstat", "Warning", "m", some [⟨"mlx5_0", "Down", "", 0⟩]⟩],
   false, false, false⟩

/-- The C2 witness cycle result (unhealthy, timestamp 1000). -/
def c2Cr : CheckResult := { initCheckResult 1000 with health := unhealthyState }

/-- Witness for C2 at a concrete unhealthy cycle with two down events. -/
theorem evaluateIbPortDrop_characterization_witness :
    (1 < (ibstatEventsInWindow c2Bucket c2Cr.ts).length ∨
     ((ibstatEventsInWindow c2Bucket c2Cr.ts).length = 1 ∧
      ((ibstatEventsInWindow c2Bucket c2Cr.ts).headD dummyEvent).time ≠ c2Cr.ts)) ∧
    (∀ ev ∈ ibstatEventsInWindow c2Bucket c2Cr.ts,
      ((parseIBPortsFromEvent ev).map (fun p => p.device)).Nodup) ∧
    (∃ msgs : List String,
      List.Sorted (fun a b => a ≤ b) msgs ∧
      (∀ m, m ∈ msgs ↔ ∃ dev i,
        firstStableIdx? (ibstatEventsInWindow c2Bucket c2Cr.ts) dev = some i ∧
        240 ≤ c2Cr.ts - ((ibstatEventsInWindow c2Bucket c2Cr.ts).getD i dummyEvent).time ∧
        m = dev ++ " dropped " ++
              relTime ((ibstatEventsInWindow c2Bucket c2Cr.ts).getD i dummyEvent).time c2Cr.ts) ∧
      (evaluateIbPortDrop c2Bucket c2Cr).reasonIbPortDrop =
        (if msgs.isEmpty then ""
         else "ib port drop -- " ++ String.intercalate ", " msgs)) :=
  ⟨Or.inl (by decide), by decide,
   evaluateIbPortDrop_characterization c2Bucket c2Cr _ rfl rfl (by decide) rfl rfl
     (Or.inl (by decide)) (by decide)⟩

/-! ### Port-flap scan characterization (C3) -/

/-- Collapse consecutive duplicates of a state sequence, given the state
last kept. -/
def collapseFrom (prev : String) : List String → List String
  | [] => []
  | s :: rest => if s == prev then collapseFrom prev rest else s :: collapseFrom s rest

/-- The collapsed sequence of distinct consecutive states. -/
def collapse : List String → List String
  | [] => []
  | s :: rest => s :: collapseFrom s rest

/-- The device's state readings over window events at most 4 minutes old,
in ascending order. -/
def recentDevStates (now : Int) (evs : List Event) (dev : String) : List String :=
  (evs.filter (fun e => decide (now - e.time ≤ 240))).filterMap (fun e => devState e dev)

theorem collapseFrom_getLastD (xs : List String) (p : String) :
    (collapseFrom p xs).getLastD p = xs.getLastD p := by
  induction xs generalizing p with
  | nil => rfl
  | cons s rest ih =>
    unfold collapseFrom
    by_cases hs : (s == p) = true
    · have hsp : s = p := beq_iff_eq.mp hs
      rw [if_pos hs, ih, List.getLastD_cons, hsp]
    · rw [if_neg hs, List.getLastD_cons, List.getLastD_cons]
      exact ih s

theorem collapse_getLastD (xs : List String) (d : String) (h : xs ≠ []) :
    (collapse xs).getLastD d = xs.getLastD d := by
  cases xs with
  | nil => exact absurd rfl h
  | cons s rest =>
    unfold collapse
    rw [List.getLastD_cons, List.getLastD_cons, collapseFrom_getLastD]

theorem collapse_ne_nil (xs : List String) (h : xs ≠ []) : collapse xs ≠ [] := by
  cases xs with
  | nil => exact absurd rfl h
  | cons s rest =>
    unfold collapse
    exact List.cons_ne_nil _ _

theorem collapseFrom_cons (q y : String) (ys : List String) :
    collapseFrom q (y :: ys) =
      (if y == q then collapseFrom q ys else y :: collapseFrom y ys) := rfl

theorem collapse_cons (y : String) (ys : List String) :
    collapse (y :: ys) = y :: collapseFrom y ys := rfl

theorem collapseFrom_concat (xs : List String) (p s : String) :
    collapseFrom p (xs ++ [s]) =
      (if s == xs.getLastD p then collapseFrom p xs else collapseFrom p xs ++ [s]) := by
  induction xs generalizing p with
  | nil =>
    rw [List.nil_append, List.getLastD_nil, collapseFrom_cons p s []]
    by_cases hs : (s == p) = true
    · rw [if_pos hs, if_pos hs]
    · rw [if_neg hs, if_neg hs]
      rfl
  | cons x xs ih =>
    rw [List.cons_append, collapseFrom_cons p x (xs ++ [s]), collapseFrom_cons p x xs,
        List.getLastD_cons]
    by_cases hx : (x == p) = true
    · rw [if_pos hx, if_pos hx, ih p, beq_iff_eq.mp hx]
    · rw [if_neg hx, if_neg hx, ih x]
      by_cases hc : (s == xs.getLastD x) = true
      · rw [if_pos hc, if_pos hc]
      · rw [if_neg hc, if_neg hc, List.cons_append]

theorem collapse_concat (xs : List String) (s : String) :
    collapse (xs ++ [s]) =
      (if xs.isEmpty then [s]
       else if s == xs.getLastD "" then collapse xs else collapse xs ++ [s]) := by
  cases xs with
  | nil => rfl
  | cons x rest =>
    rw [List.cons_append, collapse_cons x (rest ++ [s]), collapse_cons x rest,
        collapseFrom_concat, List.getLastD_cons]
    have hni : ((x :: rest).isEmpty) = false := rfl
    have hf : ¬(false = true) := by simp
    rw [hni, if_neg hf]
    by_cases hc : (s == rest.getLastD x) = true
    · rw [if_pos hc, if_pos hc]
    · rw [if_neg hc, if_neg hc, List.cons_append]

theorem foldl_flapPort_lookup_not_mem (ports : List IBPort)
    (m : List (String × List String)) (dev : String)
    (h : ∀ q ∈ ports, q.device ≠ dev) :
    mapLookup (ports.foldl flapPort m) dev = mapLookup m dev := by
  induction ports generalizing m with
  | nil => rfl
  | cons p ps ih =>
    rw [List.foldl_cons, ih _ (fun q hq => h q (List.mem_cons_of_mem _ hq))]
    have hpd : dev ≠ p.device := fun hc => h p (List.mem_cons_self _ _) hc.symm
    unfold flapPort
    cases hlk : mapLookup m p.device with
    | none => exact mapLookup_set_other m p.device _ dev hpd
    | some prev =>
      dsimp only
      by_cases h1 : (prev.length == 0) = true
      · rw [if_pos h1]
        exact mapLookup_set_other m p.device _ dev hpd
      · rw [if_neg h1]
        by_cases h2 : (prev.getLastD "" != p.state) = true
        · rw [if_pos h2]
          exact mapLookup_set_other m p.device _ dev hpd
        · rw [if_neg h2]

theorem foldl_flapPort_lookup (ports : List IBPort) (m : List (String × List String))
    (dev : String) (hu : (ports.map (fun p => p.device)).Nodup) :
    mapLookup (ports.foldl flapPort m) dev =
      (match ports.find? (fun p => p.device == dev) with
       | none => mapLookup m dev
       | some p =>
         match mapLookup m dev with
         | none => some [p.state]
         | some prev =>
           if prev.length == 0 then some [p.state]
           else if prev.getLastD "" != p.state then some (prev ++ [p.state])
           else some prev) := by
  induction ports generalizing m with
  | nil => rfl
  | cons p ps ih =>
    rw [List.foldl_cons]
    have hu' : (ps.map (fun p => p.device)).Nodup := (List.nodup_cons.mp hu).2
    by_cases hd : (p.device == dev) = true
    · have hdev : p.device = dev := beq_iff_eq.mp hd
      have hfind : List.find? (fun q => q.device == dev) (p :: ps) = some p := by
        simp [List.find?, hd]
      rw [hfind]
      have hnone : ∀ q ∈ ps, q.device ≠ dev := by
        intro q hq hc
        have hmem : p.device ∈ ps.map (fun p => p.device) := by
          rw [hdev, ← hc]
          exact List.mem_map.mpr ⟨q, hq, rfl⟩
        exact (List.nodup_cons.mp hu).1 hmem
      rw [foldl_flapPort_lookup_not_mem ps _ dev hnone]
      dsimp only
      unfold flapPort
      rw [hdev]
      cases hlk : mapLookup m dev with
      | none => exact mapLookup_set_self m dev _
      | some prev =>
        dsimp only
        by_cases h1 : (prev.length == 0) = true
        · rw [if_pos h1, if_pos h1]
          exact mapLookup_set_self m dev _
        · rw [if_neg h1, if_neg h1]
          by_cases h2 : (prev.getLastD "" != p.state) = true
          · rw [if_pos h2, if_pos h2]
            exact mapLookup_set_self m dev _
          · rw [if_neg h2, if_neg h2]
            exact hlk
    · have hdf : (p.device == dev) = false := by
        cases hq : (p.device == dev)
        · rfl
        · exact absurd hq hd
      have hfind : List.find? (fun q => q.device == dev) (p :: ps) =
          List.find? (fun q => q.device == dev) ps := by
        simp [List.find?, hdf]
      rw [hfind, ih _ hu']
      have hpd : dev ≠ p.device := by
        intro hc
        rw [hc] at hd
        exact hd (by simp)
      have hlk : mapLookup (flapPort m p) dev = mapLookup m dev := by
        unfold flapPort
        cases hl : mapLookup m p.device with
        | none => exact mapLookup_set_other m p.device _ dev hpd
        | some prev =>
          dsimp only
          by_cases h1 : (prev.length == 0) = true
          · rw [if_pos h1]
            exact mapLookup_set_other m p.device _ dev hpd
          · rw [if_neg h1]
            by_cases h2 : (prev.getLastD "" != p.state) = true
            · rw [if_pos h2]
              exact mapLookup_set_other m p.device _ dev hpd
            · rw [if_neg h2]
      rw [hlk]

theorem flapEvent_lookup (now : Int) (ev : Event) (m : List (String × List String))
    (dev : String)
    (hu : ((parseIBPortsFromEvent ev).map (fun p => p.device)).Nodup) :
    mapLookup (flapEvent now m ev) dev =
      (if now - ev.time > 240 then mapLookup m dev
       else match devState ev dev with
         | none => mapLookup m dev
         | some s =>
           match mapLookup m dev with
           | none => some [s]
           | some prev =>
             if prev.length == 0 then some [s]
             else if prev.getLastD "" != s then some (prev ++ [s])
             else some prev) := by
  unfold flapEvent
  by_cases ht : now - ev.time > 240
  · rw [if_pos ht, if_pos ht]
  · rw [if_neg ht, if_neg ht, foldl_flapPort_lookup _ _ _ hu]
    unfold devState
    cases hf : (parseIBPortsFromEvent ev).find? (fun p => p.device == dev)
    · rfl
    · rfl

theorem foldl_flapPort_keys (ports : List IBPort) (m : List (String × List String))
    (h : (mapKeys m).Nodup) : (mapKeys (ports.foldl flapPort m)).Nodup := by
  induction ports generalizing m with
  | nil => exact h
  | cons p ps ih =>
    rw [List.foldl_cons]
    apply ih
    unfold flapPort
    cases hlk : mapLookup m p.device with
    | none => exact keys_nodup_set m p.device _ h
    | some prev =>
      dsimp only
      by_cases h1 : (prev.length == 0) = true
      · rw [if_pos h1]
        exact keys_nodup_set m p.device _ h
      · rw [if_neg h1]
        by_cases h2 : (prev.getLastD "" != p.state) = true
        · rw [if_pos h2]
          exact keys_nodup_set m p.device _ h
        · rw [if_neg h2]
          exact h

theorem buildStateTransitions_keys (now : Int) (evs : List Event) :
    (mapKeys (buildStateTransitions now evs)).Nodup := by
  suffices h : ∀ m : List (String × List String), (mapKeys m).Nodup →
      (mapKeys (evs.foldl (flapEvent now) m)).Nodup by
    exact h [] (by simp [mapKeys])
  induction evs with
  | nil => exact fun m hm => hm
  | cons ev evs ih =>
    intro m hm
    rw [List.foldl_cons]
    apply ih
    unfold flapEvent
    by_cases ht : now - ev.time > 240
    · rw [if_pos ht]
      exact hm
    · rw [if_neg ht]
      exact foldl_flapPort_keys _ _ hm

theorem recentDevStates_concat (now : Int) (evs : List Event) (e : Event) (dev : String) :
    recentDevStates now (evs ++ [e]) dev =
      recentDevStates now evs dev ++
        (if now - e.time ≤ 240 then (devState e dev).toList else []) := by
  unfold recentDevStates
  rw [List.filter_append, List.filterMap_append]
  congr 1
  by_cases ht : now - e.time ≤ 240
  · rw [if_pos ht]
    have hf : List.filter (fun e => decide (now - e.time ≤ 240)) [e] = [e] := by
      simp [List.filter, ht]
    rw [hf]
    cases hds : devState e dev
    · simp [List.filterMap, hds]
    · simp [List.filterMap, hds]
  · rw [if_neg ht]
    have hf : List.filter (fun e => decide (now - e.time ≤ 240)) [e] = [] := by
      simp [List.filter, ht]
    rw [hf]
    rfl

theorem buildStateTransitions_lookup (now : Int) (evs : List Event) (dev : String)
    (hu : ∀ ev ∈ evs, ((parseIBPortsFromEvent ev).map (fun p => p.device)).Nodup) :
    mapLookup (buildStateTransitions now evs) dev =
      (if (recentDevStates now evs dev).isEmpty then none
       else some (collapse (recentDevStates now evs dev))) := by
  induction evs using List.reverseRecOn with
  | nil => rfl
  | append_singleton evs e ih =>
    have hbuild : buildStateTransitions now (evs ++ [e]) =
        flapEvent now (buildStateTransitions now evs) e := by
      unfold buildStateTransitions
      rw [List.foldl_append]
      rfl
    rw [hbuild, flapEvent_lookup _ _ _ _ (hu e (by simp)), recentDevStates_concat]
    have ih' := ih (fun ev hev => hu ev (by simp [hev]))
    by_cases ht : now - e.time > 240
    · have hcond : ¬(now - e.time ≤ 240) := by omega
      rw [if_pos ht, ih', if_neg hcond, List.append_nil]
    · have hcond2 : now - e.time ≤ 240 := by omega
      rw [if_neg ht, if_pos hcond2]
      cases hds : devState e dev with
      | none =>
        dsimp only
        rw [ih']
        have htl : (none : Option String).toList = [] := rfl
        rw [htl, List.append_nil]
      | some s =>
        dsimp only
        rw [ih']
        have htl : (some s).toList = [s] := rfl
        rw [htl]
        by_cases hre : (recentDevStates now evs dev).isEmpty = true
        · have hnil : recentDevStates now evs dev = [] := by
            cases hq : recentDevStates now evs dev
            · rfl
            · rw [hq] at hre
              exact absurd hre (by simp)
          rw [if_pos hre, hnil, List.nil_append]
          rfl
        · have hren : recentDevStates now evs dev ≠ [] := by
            intro hc
            rw [hc] at hre
            exact hre rfl
          rw [if_neg hre]
          dsimp only
          have hf : ¬(false = true) := by simp
          have hlen0 : ((collapse (recentDevStates now evs dev)).length == 0) = false := by
            have hcn := collapse_ne_nil _ hren
            cases hq : collapse (recentDevStates now evs dev)
            · exact absurd hq hcn
            · rfl
          rw [hlen0, if_neg hf]
          have hlast : (collapse (recentDevStates now evs dev)).getLastD "" =
              (recentDevStates now evs dev).getLastD "" := collapse_getLastD _ _ hren
          have happ : ((recentDevStates now evs dev) ++ [s]).isEmpty = false := by
            cases hq : recentDevStates now evs dev
            · rfl
            · rfl
          rw [happ, if_neg hf, collapse_concat]
          have hie : (recentDevStates now evs dev).isEmpty = false := by
            cases hq : recentDevStates now evs dev
            · exact absurd hq hren
            · rfl
          rw [hie, if_neg hf]
          by_cases hc : (s == (recentDevStates now evs dev).getLastD "") = true
          · have hcs : s = (recentDevStates now evs dev).getLastD "" := beq_iff_eq.mp hc
            have hb : ((collapse (recentDevStates now evs dev)).getLastD "" != s) = false := by
              rw [hlast, ← hcs]
              exact bne_self_eq_false s
            rw [hb, if_neg hf, if_pos hc]
          · have hcf : (s == (recentDevStates now evs dev).getLastD "") = false := by
              cases hq : (s == (recentDevStates now evs dev).getLastD "")
              · rfl
              · exact absurd hq hc
            have hb : ((collapse (recentDevStates now evs dev)).getLastD "" != s) = true := by
              rw [hlast]
              have hne : (recentDevStates now evs dev).getLastD "" ≠ s := by
                intro hx
                rw [← hx] at hcf
                simp at hcf
              simpa using hne
            have htt : (true = true) := rfl
            rw [hb, if_pos htt, if_neg hc]

theorem evaluateIbPortFlap_health_blind (b : Bucket) (cr : CheckResult) (h : String) :
    (evaluateIbPortFlap b { cr with health := h }).reasonIbPortFlap =
      (evaluateIbPortFlap b cr).reasonIbPortFlap := by
  unfold evaluateIbPortFlap
  dsimp only
  by_cases h1 : (cr.ts == 0) = true
  · rw [if_pos h1, if_pos h1]
  · rw [if_neg h1, if_neg h1]
    cases hr : readAllIbstatEvents b (cr.ts - 600) with
    | error e => rfl
    | ok ibstatEvents =>
      dsimp only
      by_cases h2 : ibstatEvents.length ≤ 1
      · rw [if_pos h2, if_pos h2]
      · rw [if_neg h2, if_neg h2]
        by_cases h3 : cr.ts - (ibstatEvents.headD dummyEvent).time < 0
        · rw [if_pos h3, if_pos h3]
        · rw [if_neg h3, if_neg h3]
          by_cases h4 : ((buildStateTransitions cr.ts ibstatEvents).length == 0) = true
          · rw [if_pos h4, if_pos h4]
          · rw [if_neg h4, if_neg h4]
            by_cases h5 :
                ((flapMsgsOf (buildStateTransitions cr.ts ibstatEvents)).length == 0) = true
            · rw [if_pos h5, if_pos h5]
            · rw [if_neg h5, if_neg h5]

theorem flapMsgsOf_mem (st : List (String × List String))
    (hnd : (mapKeys st).Nodup) (m : String) :
    m ∈ flapMsgsOf st ↔
      ∃ dev tr, mapLookup st dev = some tr ∧ 2 ≤ tr.length ∧
        m = dev ++ " " ++ String.intercalate " -> " (lastFour tr) := by
  unfold flapMsgsOf
  rw [List.mem_filterMap]
  constructor
  · rintro ⟨⟨dev, tr⟩, hmem, hf⟩
    dsimp only at hf
    by_cases h1 : tr.length < 2
    · rw [if_pos h1] at hf
      exact absurd hf (by simp)
    · rw [if_neg h1] at hf
      have hm : dev ++ " " ++ String.intercalate " -> " (lastFour tr) = m := by
        injection hf
      exact ⟨dev, tr, (mapLookup_eq_some_iff_mem st hnd dev tr).mpr hmem, by omega, hm.symm⟩
  · rintro ⟨dev, tr, hlk, hlen, hm⟩
    refine ⟨(dev, tr), (mapLookup_eq_some_iff_mem st hnd dev tr).mp hlk, ?_⟩
    dsimp only
    rw [if_neg (by omega), hm]

/-- **C3.** The port-flap detector runs regardless of the current verdict
(the flap reason does not depend on the health field); with one or zero
window events no flap reason is set; and with at least two window events a
device yields a flap message exactly when the collapsed sequence of its
distinct consecutive states over events at most 4 minutes old has at least
2 entries, the message joining at most the last 4 such states with " -> ",
the per-device messages sorted lexicographically after the prefix
"ib port flap -- ".  Device names are unique within each event's payload,
as the spec's data model assumes, and stored events do not postdate the
cycle. -/
theorem evaluateIbPortFlap_characterization (b : Bucket) (cr : CheckResult)
    (evs : List Event)
    (hevs : evs = ibstatEventsInWindow b cr.ts)
    (hts : cr.ts ≠ 0)
    (hfg : b.failGet = false)
    (h0 : cr.reasonIbPortFlap = "")
    (hhead : evs ≠ [] → (evs.headD dummyEvent).time ≤ cr.ts)
    (hu : ∀ ev ∈ evs, ((parseIBPortsFromEvent ev).map (fun p => p.device)).Nodup) :
    (∀ h, (evaluateIbPortFlap b { cr with health := h }).reasonIbPortFlap =
          (evaluateIbPortFlap b cr).reasonIbPortFlap) ∧
    (evs.length ≤ 1 → (evaluateIbPortFlap b cr).reasonIbPortFlap = "") ∧
    (2 ≤ evs.length →
      ∃ msgs : List String,
        List.Sorted (fun a b => a ≤ b) msgs ∧
        (∀ m, m ∈ msgs ↔ ∃ dev,
          2 ≤ (collapse (recentDevStates cr.ts evs dev)).length ∧
          m = dev ++ " " ++ String.intercalate " -> "
                (lastFour (collapse (recentDevStates cr.ts evs dev)))) ∧
        (evaluateIbPortFlap b cr).reasonIbPortFlap =
          (if msgs.isEmpty then ""
           else "ib port flap -- " ++ String.intercalate ", " msgs)) := by
  have hts0 : (cr.ts == 0) = false := beq_eq_false_iff_ne.mpr hts
  refine ⟨fun h => evaluateIbPortFlap_health_blind b cr h, ?_, ?_⟩
  · intro hle
    unfold evaluateIbPortFlap
    rw [if_neg (by rw [hts0]; decide), readAllIbstatEvents_ok b cr.ts hfg, ← hevs]
    dsimp only
    rw [if_pos hle]
    exact h0
  · intro hlen2
    have hne : evs ≠ [] := by
      intro hc
      rw [hc] at hlen2
      exact absurd hlen2 (by decide)
    have hhd := hhead hne
    have hg1 : ¬(evs.length ≤ 1) := by omega
    have hg2 : ¬(cr.ts - (evs.headD dummyEvent).time < 0) := by omega
    have hres : evaluateIbPortFlap b cr =
        (if ((buildStateTransitions cr.ts evs).length == 0) = true then cr
         else if ((flapMsgsOf (buildStateTransitions cr.ts evs)).length == 0) = true then cr
         else { cr with
                  reasonIbPortFlap := "ib port flap -- " ++ String.intercalate ", " (sortStrings (flapMsgsOf (buildStateTransitions cr.ts evs))) }) := by
      unfold evaluateIbPortFlap
      rw [if_neg (by rw [hts0]; decide), readAllIbstatEvents_ok b cr.ts hfg, ← hevs]
      dsimp only
      rw [if_neg hg1, if_neg hg2]
    refine ⟨sortStrings (flapMsgsOf (buildStateTransitions cr.ts evs)),
      List.sorted_insertionSort _ _, ?_, ?_⟩
    · intro m
      simp only [sortStrings]
      rw [(List.perm_insertionSort (fun a b => a ≤ b)
            (flapMsgsOf (buildStateTransitions cr.ts evs))).mem_iff,
          flapMsgsOf_mem _ (buildStateTransitions_keys cr.ts evs) m]
      constructor
      · rintro ⟨dev, tr, hlk, hl2, hm⟩
        rw [buildStateTransitions_lookup cr.ts evs dev hu] at hlk
        by_cases hre : (recentDevStates cr.ts evs dev).isEmpty = true
        · rw [if_pos hre] at hlk
          exact absurd hlk (by simp)
        · rw [if_neg hre] at hlk
          have htr : collapse (recentDevStates cr.ts evs dev) = tr := by
            injection hlk
          refine ⟨dev, ?_, ?_⟩
          · rw [htr]
            exact hl2
          · rw [htr]
            exact hm
      · rintro ⟨dev, hl2, hm⟩
        have hren : recentDevStates cr.ts evs dev ≠ [] := by
          intro hc
          rw [hc] at hl2
          exact absurd hl2 (by decide)
        have hre : (recentDevStates cr.ts evs dev).isEmpty = false := by
          cases hq : recentDevStates cr.ts evs dev
          · exact absurd hq hren
          · rfl
        refine ⟨dev, collapse (recentDevStates cr.ts evs dev), ?_, hl2, hm⟩
        rw [buildStateTransitions_lookup cr.ts evs dev hu, hre]
        have hf : ¬(false = true) := by simp
        rw [if_neg hf]
    · rw [hres]
      by_cases hst : ((buildStateTransitions cr.ts evs).length == 0) = true
      · rw [if_pos hst]
        have hstnil : buildStateTransitions cr.ts evs = [] := by
          cases hq : buildStateTransitions cr.ts evs
          · rfl
          · rw [hq] at hst
            exact absurd hst (by simp)
        rw [h0, hstnil]
        rfl
      · rw [if_neg hst]
        by_cases hmz : ((flapMsgsOf (buildStateTransitions cr.ts evs)).length == 0) = true
        · rw [if_pos hmz]
          have hmnil : flapMsgsOf (buildStateTransitions cr.ts evs) = [] := by
            cases hq : flapMsgsOf (buildStateTransitions cr.ts evs)
            · rfl
            · rw [hq] at hmz
              exact absurd hmz (by simp)
          rw [h0, hmnil]
          rfl
        · rw [if_neg hmz]
          have hlenne : (sortStrings (flapMsgsOf (buildStateTransitions cr.ts evs))).length ≠ 0 := by
            simp only [sortStrings]
            rw [(List.perm_insertionSort (fun a b => a ≤ b)
                  (flapMsgsOf (buildStateTransitions cr.ts evs))).length_eq]
            intro hc
            rw [hc] at hmz
            exact hmz (by decide)
          have hie : (sortStrings (flapMsgsOf (buildStateTransitions cr.ts evs))).isEmpty = false := by
            cases hq : sortStrings (flapMsgsOf (buildStateTransitions cr.ts evs))
            · rw [hq] at hlenne
              exact absurd rfl hlenne
            · rfl
          have hx : ¬((sortStrings (flapMsgsOf (buildStateTransitions cr.ts evs))).isEmpty = true) := by
            rw [hie]
            decide
          rw [if_neg hx]

/-- The C3 witness bucket: one device flapping Down, Active, Down within
the trailing 4 minutes. -/
def c3Bucket : Bucket :=
  ⟨[⟨800, "ibstat", "Warning", "m", some [⟨"mlx5_0", "Down", "", 0⟩]⟩,
    ⟨880, "ibstat", "Info", "m", some [⟨"mlx5_0", "Active", "", 0⟩]⟩,
    ⟨940, "ibstat", "Warning", "m", some [⟨"mlx5_0", "Down", "", 0⟩]⟩],
   false, false, false⟩

/-- The C3 witness cycle result (timestamp 1000). -/
def c3Cr : CheckResult := initCheckResult 1000

/-- Witness for C3 at a concrete cycle with a Down, Active, Down flap. -/
theorem evaluateIbPortFlap_characterization_witness :
    2 ≤ (ibstatEventsInWindow c3Bucket c3Cr.ts).length ∧
    (∀ ev ∈ ibstatEventsInWindow c3Bucket c3Cr.ts,
      ((parseIBPortsFromEvent ev).map (fun p => p.device)).Nodup) ∧
    ((∀ h, (evaluateIbPortFlap c3Bucket { c3Cr with health := h }).reasonIbPortFlap =
           (evaluateIbPortFlap c3Bucket c3Cr).reasonIbPortFlap) ∧
     ((ibstatEventsInWindow c3Bucket c3Cr.ts).length ≤ 1 →
       (evaluateIbPortFlap c3Bucket c3Cr).reasonIbPortFlap = "") ∧
     (2 ≤ (ibstatEventsInWindow c3Bucket c3Cr.ts).length →
       ∃ msgs : List String,
         List.Sorted (fun a b => a ≤ b) msgs ∧
         (∀ m, m ∈ msgs ↔ ∃ dev,
           2 ≤ (collapse (recentDevStates c3Cr.ts (ibstatEventsInWindow c3Bucket c3Cr.ts) dev)).length ∧
           m = dev ++ " " ++ String.intercalate " -> "
                 (lastFour (collapse (recentDevStates c3Cr.ts (ibstatEventsInWindow c3Bucket c3Cr.ts) dev)))) ∧
         (evaluateIbPortFlap c3Bucket c3Cr).reasonIbPortFlap =
           (if msgs.isEmpty then ""
            else "ib port flap -- " ++ String.intercalate ", " msgs))) :=
  ⟨by decide, by decide,
   evaluateIbPortFlap_characterization c3Bucket c3Cr _ rfl (by decide) rfl rfl
     (by decide) (by decide)⟩

end GpudInfiniband
